import Mathlib

/-!
hal5_usb: the device-side USB driver core.

A shallow embedding of `hal5_usb_device.c` and of the descriptor tables of
`hal5_usb_device_descriptors.c`, followed by theorems about the embedded
functions.

Conventions of the embedding.

* Machine integers are naturals; where the C arithmetic can wrap, the
  reduction modulo `2 ^ 32` is written out.  A `uint8_t` argument is a natural
  below 256.
* A C function that can stop in `assert` or run into undefined behaviour
  returns an `Except`; the error carries the fault and the state the run had
  reached when it stopped.
* Global variables and the peripheral registers the file writes are the fields
  of `World`.  Endpoint objects live in `World.objects`, addressed by a
  natural number that plays the role of the C pointer; the table `endpoints`
  stores such addresses.
* Functions of the HAL that this file calls but does not define are the fields
  of `Env`; every such call is also appended to a trace of `Event`s, in
  program order.
-/

namespace Hal5Usb

/-! ## Descriptor tree (layout as initialised in `hal5_usb_device_descriptors.c`) -/

structure hal5_usb_endpoint_descriptor_t where
  bLength : Nat
  bDescriptorType : Nat
  bEndpointAddress : Nat
  bmAttributes : Nat
  wMaxPacketSize : Nat
deriving DecidableEq, Repr

structure hal5_usb_interface_descriptor_t where
  bLength : Nat
  bDescriptorType : Nat
  bInterfaceNumber : Nat
  bAlternateSetting : Nat
  bNumEndpoints : Nat
  bInterfaceClass : Nat
  bInterfaceSubClass : Nat
  bInterfaceProtocol : Nat
  iInterface : Nat
  endpoints : List hal5_usb_endpoint_descriptor_t
deriving DecidableEq, Repr

structure hal5_usb_configuration_descriptor_t where
  bLength : Nat
  bDescriptorType : Nat
  wTotalLength : Nat
  bNumInterfaces : Nat
  bConfigurationValue : Nat
  iConfiguration : Nat
  bmAttributes : Nat
  bMaxPower : Nat
  interfaces : List hal5_usb_interface_descriptor_t
deriving DecidableEq, Repr

structure hal5_usb_device_descriptor_t where
  bLength : Nat
  bDescriptorType : Nat
  bcdUSB : Nat
  bDeviceClass : Nat
  bDeviceSubClass : Nat
  bDeviceProtocol : Nat
  bMaxPacketSize0 : Nat
  idVendor : Nat
  idProduct : Nat
  bcdDevice : Nat
  iManufacturer : Nat
  iProduct : Nat
  iSerialNumber : Nat
  bNumConfigurations : Nat
  configurations : List hal5_usb_configuration_descriptor_t
deriving DecidableEq, Repr

def hal5_usb_endpoint_descriptor_1 : hal5_usb_endpoint_descriptor_t :=
  { bLength := 7, bDescriptorType := 0x05, bEndpointAddress := 0x01,
    bmAttributes := 0x00, wMaxPacketSize := 64 }

def hal5_usb_interface_descriptor_0 : hal5_usb_interface_descriptor_t :=
  { bLength := 9, bDescriptorType := 0x04, bInterfaceNumber := 0,
    bAlternateSetting := 0, bNumEndpoints := 1, bInterfaceClass := 0xFF,
    bInterfaceSubClass := 0xFF, bInterfaceProtocol := 0xFF, iInterface := 1,
    endpoints := [hal5_usb_endpoint_descriptor_1] }

def hal5_usb_configuration_descriptor_0 : hal5_usb_configuration_descriptor_t :=
  { bLength := 9, bDescriptorType := 0x02, wTotalLength := 25,
    bNumInterfaces := 1, bConfigurationValue := 1, iConfiguration := 2,
    bmAttributes := 0xC0, bMaxPower := 0x00,
    interfaces := [hal5_usb_interface_descriptor_0] }

def hal5_usb_device_descriptor_0 : hal5_usb_device_descriptor_t :=
  { bLength := 18, bDescriptorType := 0x01, bcdUSB := 0x0200,
    bDeviceClass := 0x00, bDeviceSubClass := 0x00, bDeviceProtocol := 0x00,
    bMaxPacketSize0 := 64, idVendor := 0x1209, idProduct := 0x0001,
    bcdDevice := 0x0100, iManufacturer := 3, iProduct := 4,
    iSerialNumber := 0, bNumConfigurations := 1,
    configurations := [hal5_usb_configuration_descriptor_0] }

/-- The global `hal5_usb_device_descriptor` of `hal5_usb_device_descriptors.c`. -/
def hal5_usb_device_descriptor : hal5_usb_device_descriptor_t :=
  hal5_usb_device_descriptor_0

/-- Array bounds of a descriptor tree: every counted array holds at least as
many entries as its count field announces, so that the counted loops of the
driver read initialised entries only. -/
def interface_wf (id : hal5_usb_interface_descriptor_t) : Prop :=
  id.bNumEndpoints ≤ id.endpoints.length

def configuration_wf (cd : hal5_usb_configuration_descriptor_t) : Prop :=
  cd.bNumInterfaces ≤ cd.interfaces.length ∧ ∀ id ∈ cd.interfaces, interface_wf id

def device_wf (dd : hal5_usb_device_descriptor_t) : Prop :=
  dd.bNumConfigurations = dd.configurations.length ∧
    ∀ cd ∈ dd.configurations, configuration_wf cd

/-! ## Driver types -/

inductive hal5_usb_device_state_t where
  | usb_device_state_default
  | usb_device_state_address
  | usb_device_state_configured
deriving DecidableEq, Repr

export hal5_usb_device_state_t
  (usb_device_state_default usb_device_state_address usb_device_state_configured)

/-- The endpoint status codes.  The enumeration is declared in `hal5_usb.h`;
this file uses `ep_status_stall` and `ep_status_valid`, the other two are the
remaining values of the two-bit hardware field. -/
inductive hal5_usb_ep_status_t where
  | ep_status_disabled
  | ep_status_stall
  | ep_status_nak
  | ep_status_valid
deriving DecidableEq, Repr

export hal5_usb_ep_status_t
  (ep_status_disabled ep_status_stall ep_status_nak ep_status_valid)

/-- A buffer descriptor: the buffer address and the byte count. -/
structure hal5_usb_bd_t where
  addr : Nat
  count : Nat
deriving DecidableEq, Repr

/-- The shadow of the channel/endpoint register, the bits this file reads. -/
structure hal5_usb_chep_t where
  vtrx : Bool
  vttx : Bool
  setup : Bool
deriving DecidableEq, Repr

/-- The endpoint object.  The structure is declared in `hal5_usb.h`; the fields
are those `hal5_usb_device.c` reads or writes.  The byte counters
`rx_received` and `tx_sent` are taken as 32-bit unsigned, the word of the
target; `rxbd`, `txbd` and `chep` stand for the descriptors and the register
shadow the object points to. -/
structure hal5_usb_endpoint_t where
  endp : Nat
  dir_in : Bool
  mps : Nat
  rxbd : hal5_usb_bd_t
  txbd : hal5_usb_bd_t
  chep : hal5_usb_chep_t
  istr_v : Nat
  rx_status : hal5_usb_ep_status_t
  tx_status : hal5_usb_ep_status_t
  rx_data : List Nat
  rx_received : Nat
  device_request : Option (List Nat)
  tx_data_size : Nat
  tx_sent : Nat
  tx_sent_limit : Nat
  tx_expected_valid : Bool
  tx_expected : Nat
  tx_zlp_sent : Bool
  last_out : Bool
  current_out : Bool
deriving DecidableEq, Repr

/-- The value of `hal5_usb_device_ep0_get_standard_request()`. -/
inductive hal5_usb_standard_request_t where
  | standard_request_null
  | standard_request_other (code : Nat)
deriving DecidableEq, Repr

export hal5_usb_standard_request_t (standard_request_null standard_request_other)

/-- The ways a run of the C code can stop without returning.  A failed `assert`
carries the line of the assertion in `hal5_usb_device.c`. -/
inductive Fault where
  | assert_failed (line : Nat)
  | invalid_pointer
  | out_of_bounds
  | division_by_zero
deriving DecidableEq, Repr

/-- Calls that leave this file, in the order they are made. -/
inductive Event where
  | set_configuration_ex (configuration_value : Nat)
  | sram_memset (offset value len : Nat)
  | ep_free (p : Option Nat)
  | ep_create (ed : Option hal5_usb_endpoint_descriptor_t) (mps next_bd_addr p : Nat)
  | ep_sync_from_reg
  | ep_sync_to_reg
  | ep_prepare_for_out (tx_status : hal5_usb_ep_status_t)
  | ep_set_status (rx_status tx_status : hal5_usb_ep_status_t)
  | ep_clear_vtrx
  | ep_clear_vttx
  | copy_from_endpoint
  | copy_to_endpoint
  | setup_transaction_completed_ep0
  | out_stage_completed_ep0
  | out_stage_completed_ex
  | in_stage_completed_ep0
  | in_stage_completed_ex
  | istr_write (value : Nat)
deriving DecidableEq, Repr

/-- The collaborators of `hal5_usb_device.c`: functions declared in `hal5.h`
and `hal5_usb_device.h` and defined in other files.  What they do to the
endpoint object they are handed is a parameter of the development. -/
structure Env where
  hal5_usb_ep_create :
    Option hal5_usb_endpoint_descriptor_t → Nat → Nat → hal5_usb_endpoint_t
  hal5_usb_ep_sync_from_reg : hal5_usb_endpoint_t → hal5_usb_endpoint_t
  hal5_usb_ep_sync_to_reg : hal5_usb_endpoint_t → hal5_usb_endpoint_t
  hal5_usb_ep_prepare_for_out :
    hal5_usb_endpoint_t → hal5_usb_ep_status_t → hal5_usb_endpoint_t
  hal5_usb_ep_clear_vtrx : hal5_usb_endpoint_t → hal5_usb_endpoint_t
  hal5_usb_ep_clear_vttx : hal5_usb_endpoint_t → hal5_usb_endpoint_t
  hal5_usb_device_copy_from_endpoint : hal5_usb_endpoint_t → hal5_usb_endpoint_t × Nat
  hal5_usb_device_copy_to_endpoint : hal5_usb_endpoint_t → hal5_usb_endpoint_t × Nat
  hal5_usb_device_ep0_get_standard_request : hal5_usb_standard_request_t
  hal5_usb_device_setup_transaction_completed_ep0 : hal5_usb_endpoint_t → hal5_usb_endpoint_t
  hal5_usb_device_out_stage_completed_ep0 : hal5_usb_endpoint_t → hal5_usb_endpoint_t
  hal5_usb_device_out_stage_completed_ex : hal5_usb_endpoint_t → hal5_usb_endpoint_t
  hal5_usb_device_in_stage_completed_ep0 : hal5_usb_endpoint_t → hal5_usb_endpoint_t
  hal5_usb_device_in_stage_completed_ex : hal5_usb_endpoint_t → hal5_usb_endpoint_t

/-- The registers of `USB_DRD_FS` this file writes. -/
structure USB_DRD_TypeDef where
  CNTR : Nat
  ISTR : Nat
  BCDR : Nat
  DADDR : Nat
deriving DecidableEq, Repr

/-- The bit `USB_DADDR_EF` (enable function) of the vendor header, bit 7. -/
def USB_DADDR_EF : Nat := 0x80

/-- The globals of `hal5_usb_device.c`, the registers, the endpoint objects and
the trace of outgoing calls. -/
structure World where
  USB_DRD_FS : USB_DRD_TypeDef
  usb_device_state : hal5_usb_device_state_t
  usb_device_configuration_value : Nat
  endpoints : Nat → Nat → Option Nat
  objects : Nat → Option hal5_usb_endpoint_t
  next_object : Nat
  trace : List Event

/-- A run that stopped: the fault and the world as it was at that point. -/
abbrev Stopped := Fault × World

/-- An engine run that stopped: the fault, the endpoint object as it was at
that point and the calls made until then. -/
abbrev EpStopped := Fault × hal5_usb_endpoint_t × List Event

/-- The assignment `endpoints[i][d] = p`. -/
def set_endpoint (tbl : Nat → Nat → Option Nat) (i d : Nat) (p : Option Nat) :
    Nat → Nat → Option Nat :=
  fun i2 d2 => if i2 = i ∧ d2 = d then p else tbl i2 d2

/-- Appends one outgoing call to the trace. -/
def World.emit (w : World) (e : Event) : World :=
  { w with trace := w.trace ++ [e] }

/-- Modelled from the spec: `hal5_usb_ep_free` is defined outside this file;
it releases the endpoint object it is handed and accepts the null pointer
(bus reset hands it the empty slots of a fresh table).  The released object
leaves `objects`; the call is traced with its argument. -/
def hal5_usb_ep_free (w : World) (p : Option Nat) : World :=
  let objects : Nat → Option hal5_usb_endpoint_t :=
    match p with
    | none => w.objects
    | some q => fun r => if r = q then none else w.objects r
  { w with objects := objects, trace := w.trace ++ [Event.ep_free p] }

/-- The call `hal5_usb_ep_create(ed, mps, next_bd_addr)`: a fresh object whose
content is given by the collaborator; returns the new pointer. -/
def ep_create (env : Env) (w : World) (ed : Option hal5_usb_endpoint_descriptor_t)
    (mps next_bd_addr : Nat) : World × Nat :=
  let p := w.next_object
  let obj := env.hal5_usb_ep_create ed mps next_bd_addr
  ({ w with
      objects := fun r => if r = p then some obj else w.objects r,
      next_object := p + 1,
      trace := w.trace ++ [Event.ep_create ed mps next_bd_addr p] }, p)

/-! ## Endpoint lifecycle -/

/-- The body of the loop of lines 69-75: both slots of endpoint `i` are
released and cleared. -/
def free_endpoints_body (i : Nat) (w : World) : World :=
  let w := hal5_usb_ep_free w (w.endpoints i 0)
  let w := hal5_usb_ep_free w (w.endpoints i 1)
  let w := { w with endpoints := set_endpoint w.endpoints i 0 none }
  let w := { w with endpoints := set_endpoint w.endpoints i 1 none }
  w

/-- The loop of lines 69-75, `i` running over the endpoint numbers in `is`. -/
def free_endpoints_loop : List Nat → World → World
  | [], w => w
  | i :: is, w => free_endpoints_loop is (free_endpoints_body i w)

/-- The body of the inner loop of lines 86-103 for one endpoint descriptor:
returns the world and the advanced `next_bd_addr`. -/
def recreate_endpoint_step (env : Env) (ed : hal5_usb_endpoint_descriptor_t)
    (s : World × Nat) : Except Stopped (World × Nat) :=
  let w := s.1
  let next_bd_addr := s.2
  let next_bd_addr := (next_bd_addr + (next_bd_addr &&& 0x3)) % 2 ^ 32
  let (w, p) := ep_create env w (some ed) 0 next_bd_addr
  match w.objects p with
  | none => .error (Fault.invalid_pointer, w)
  | some ep =>
    if ep.endp < 8 then
      let w := { w with
        endpoints := set_endpoint w.endpoints ep.endp (if ep.dir_in then 0 else 1) (some p) }
      .ok (w, (next_bd_addr + ed.wMaxPacketSize) % 2 ^ 32)
    else
      .error (Fault.out_of_bounds, w)

/-- The inner loop of lines 86-103: `ei` runs over the indices in `eis`. -/
def recreate_endpoints_loop (env : Env) (id : hal5_usb_interface_descriptor_t) :
    List Nat → World × Nat → Except Stopped (World × Nat)
  | [], s => .ok s
  | ei :: eis, s =>
    match id.endpoints[ei]? with
    | none => .error (Fault.out_of_bounds, s.1)
    | some ed =>
      match recreate_endpoint_step env ed s with
      | .error f => .error f
      | .ok s => recreate_endpoints_loop env id eis s

/-- The outer loop of lines 81-104: `ii` runs over the indices in `iis`. -/
def recreate_interfaces_loop (env : Env) (cd : hal5_usb_configuration_descriptor_t) :
    List Nat → World × Nat → Except Stopped (World × Nat)
  | [], s => .ok s
  | ii :: iis, s =>
    match cd.interfaces[ii]? with
    | none => .error (Fault.out_of_bounds, s.1)
    | some id =>
      match recreate_endpoints_loop env id (List.range id.bNumEndpoints) s with
      | .error f => .error f
      | .ok s => recreate_interfaces_loop env cd iis s

def recreate_endpoints_for_configuration (env : Env)
    (cd : hal5_usb_configuration_descriptor_t) (w : World) : Except Stopped World :=
  let w := w.emit (Event.sram_memset 8 0 (7 * 8))
  let w := free_endpoints_loop [1, 2, 3, 4, 5, 6, 7] w
  match w.endpoints 0 0 with
  | none => .error (Fault.invalid_pointer, w)
  | some p0 =>
    match w.objects p0 with
    | none => .error (Fault.invalid_pointer, w)
    | some ep0 =>
      let next_bd_addr := ep0.rxbd.addr
      match recreate_interfaces_loop env cd (List.range cd.bNumInterfaces)
          (w, next_bd_addr) with
      | .error f => .error f
      | .ok s => .ok s.1

/-! ## Device state machine -/

def hal5_usb_device_set_address (address : Nat) (w : World) : Except Stopped World :=
  if ¬ address ≤ 127 then .error (Fault.assert_failed 110, w)
  else if ¬ (w.usb_device_state = usb_device_state_default ∨
      w.usb_device_state = usb_device_state_address) then .error (Fault.assert_failed 120, w)
  else
    let w := { w with USB_DRD_FS := { w.USB_DRD_FS with DADDR := 0x80 ||| address } }
    if address ≠ 0 then
      .ok { w with usb_device_state := usb_device_state_address }
    else
      .ok { w with usb_device_state := usb_device_state_default }

def hal5_usb_device_get_configuration_value (w : World) : Except Stopped Nat :=
  if ¬ (w.usb_device_state = usb_device_state_address ∨
      w.usb_device_state = usb_device_state_configured) then
    .error (Fault.assert_failed 137, w)
  else
    match w.usb_device_state with
    | usb_device_state_configured =>
      if ¬ w.usb_device_configuration_value > 0 then .error (Fault.assert_failed 143, w)
      else .ok w.usb_device_configuration_value
    | usb_device_state_address => .ok 0
    | usb_device_state_default => .error (Fault.assert_failed 150, w)

/-- The loop of `hal5_usb_device_try_changing_configuration`: `i` runs over
the indices in `is`. -/
def try_changing_configuration_loop (env : Env) (dd : hal5_usb_device_descriptor_t)
    (configuration_value : Nat) : List Nat → World → Except Stopped (World × Bool)
  | [], w => .ok (w, false)
  | i :: is, w =>
    match dd.configurations[i]? with
    | none => .error (Fault.out_of_bounds, w)
    | some cd =>
      if configuration_value = cd.bConfigurationValue then
        let w := w.emit (Event.set_configuration_ex configuration_value)
        let w := { w with usb_device_configuration_value := configuration_value }
        match recreate_endpoints_for_configuration env cd w with
        | .error f => .error f
        | .ok w => .ok (w, true)
      else
        try_changing_configuration_loop env dd configuration_value is w

def hal5_usb_device_try_changing_configuration (env : Env)
    (dd : hal5_usb_device_descriptor_t) (configuration_value : Nat) (w : World) :
    Except Stopped (World × Bool) :=
  if ¬ configuration_value > 0 then .error (Fault.assert_failed 156, w)
  else
    try_changing_configuration_loop env dd configuration_value
      (List.range dd.bNumConfigurations) w

def hal5_usb_device_set_configuration_value (env : Env)
    (dd : hal5_usb_device_descriptor_t) (configuration_value : Nat) (w : World) :
    Except Stopped (World × Bool) :=
  if ¬ (w.usb_device_state = usb_device_state_address ∨
      w.usb_device_state = usb_device_state_configured) then
    .error (Fault.assert_failed 177, w)
  else if w.usb_device_state = usb_device_state_configured then
    if configuration_value ≠ 0 then
      hal5_usb_device_try_changing_configuration env dd configuration_value w
    else
      let w := w.emit (Event.set_configuration_ex 0)
      let w := { w with usb_device_configuration_value := 0 }
      let w := { w with usb_device_state := usb_device_state_address }
      .ok (w, true)
  else if w.usb_device_state = usb_device_state_address then
    if configuration_value ≠ 0 then
      match hal5_usb_device_try_changing_configuration env dd configuration_value w with
      | .error f => .error f
      | .ok (w, true) => .ok ({ w with usb_device_state := usb_device_state_configured }, true)
      | .ok (w, false) => .ok (w, false)
    else
      .ok (w, true)
  else
    .error (Fault.assert_failed 222, w)

def hal5_usb_device_get_state (w : World) : hal5_usb_device_state_t :=
  w.usb_device_state

/-- Applies `f` to the endpoint object at `p`. -/
def update_object (w : World) (p : Nat) (f : hal5_usb_endpoint_t → hal5_usb_endpoint_t) :
    World :=
  { w with objects := fun r => if r = p then (w.objects p).map f else w.objects r }

def hal5_usb_device_bus_reset (env : Env) (dd : hal5_usb_device_descriptor_t)
    (w : World) : World :=
  let w :=
    match w.usb_device_state with
    | usb_device_state_default => w
    | usb_device_state_address | usb_device_state_configured =>
      let w := { w with usb_device_state := usb_device_state_default }
      { w with USB_DRD_FS := { w.USB_DRD_FS with DADDR := USB_DADDR_EF } }
  let w := hal5_usb_ep_free w (w.endpoints 0 0)
  let w := hal5_usb_ep_free w (w.endpoints 0 1)
  let (w, ep) := ep_create env w none dd.bMaxPacketSize0 64
  let w := { w with endpoints := set_endpoint w.endpoints 0 0 (some ep) }
  let w := { w with endpoints := set_endpoint w.endpoints 0 1 (some ep) }
  let w := (update_object w ep env.hal5_usb_ep_sync_from_reg).emit Event.ep_sync_from_reg
  let w := (update_object w ep (fun e => env.hal5_usb_ep_prepare_for_out e ep_status_stall)).emit
    (Event.ep_prepare_for_out ep_status_stall)
  let w := (update_object w ep env.hal5_usb_ep_sync_to_reg).emit Event.ep_sync_to_reg
  w

/-! ## Transaction completion engine

The functions of this part work on the endpoint object they are handed; they
return the object as they leave it and the calls they made. -/

/-- Modelled from the spec: `hal5_usb_ep_set_status(ep, rx, tx)` is defined
outside this file; it marks the OUT (RX) side and the IN (TX) side of the
endpoint shadow with the two statuses, `ep_status_valid` being "armed, ready"
and `ep_status_stall` "not ready". -/
def hal5_usb_ep_set_status (ep : hal5_usb_endpoint_t)
    (rx_status tx_status : hal5_usb_ep_status_t) : hal5_usb_endpoint_t :=
  { ep with rx_status := rx_status, tx_status := tx_status }

def hal5_usb_device_out_stage_completed (env : Env) (ep : hal5_usb_endpoint_t) :
    hal5_usb_endpoint_t × List Event :=
  if ep.endp = 0 then
    (env.hal5_usb_device_out_stage_completed_ep0 ep, [Event.out_stage_completed_ep0])
  else
    (env.hal5_usb_device_out_stage_completed_ex ep, [Event.out_stage_completed_ex])

def hal5_usb_device_in_stage_completed (env : Env) (ep : hal5_usb_endpoint_t) :
    hal5_usb_endpoint_t × List Event :=
  if ep.endp = 0 then
    (env.hal5_usb_device_in_stage_completed_ep0 ep, [Event.in_stage_completed_ep0])
  else
    (env.hal5_usb_device_in_stage_completed_ex ep, [Event.in_stage_completed_ex])

def usb_device_setup_transaction_completed (env : Env) (ep : hal5_usb_endpoint_t) :
    Except EpStopped (hal5_usb_endpoint_t × List Event) :=
  if ¬ ep.rx_received = 8 then .error (Fault.assert_failed 319, ep, [])
  else
    let ep := { ep with device_request := some ep.rx_data }
    .ok (env.hal5_usb_device_setup_transaction_completed_ep0 ep,
      [Event.setup_transaction_completed_ep0])

def usb_device_out_transaction_completed (env : Env) (ep : hal5_usb_endpoint_t) :
    hal5_usb_endpoint_t × List Event :=
  if ep.rxbd.count < ep.mps then
    if ep.endp = 0 ∧
        env.hal5_usb_device_ep0_get_standard_request ≠ standard_request_null then
      (env.hal5_usb_device_out_stage_completed_ep0 ep, [Event.out_stage_completed_ep0])
    else
      hal5_usb_device_out_stage_completed env ep
  else
    (hal5_usb_ep_set_status ep ep_status_valid ep_status_stall,
      [Event.ep_set_status ep_status_valid ep_status_stall])

/-- The local enumeration `action` of `usb_device_in_transaction_completed`. -/
inductive in_action_t where
  | send_more
  | send_zlp
  | done
deriving DecidableEq, Repr

export in_action_t (send_more send_zlp done)

/-- Lines 366-396 of `usb_device_in_transaction_completed`: the choice of the
action.  The remainder `tx_sent % mps` is taken in the else branch only; a zero
`mps` there is a division by zero. -/
def usb_device_in_transaction_completed_action (ep : hal5_usb_endpoint_t) :
    Except Fault in_action_t :=
  if ep.tx_sent < ep.tx_sent_limit then
    .ok send_more
  else if ep.mps = 0 then
    .error Fault.division_by_zero
  else if ep.tx_sent % ep.mps = 0 then
    if ep.tx_expected_valid then
      if ep.tx_sent < ep.tx_expected then
        .ok (if ep.tx_zlp_sent then done else send_zlp)
      else
        .ok done
    else
      .ok (if ep.tx_zlp_sent then done else send_zlp)
  else
    .ok done

/-- Lines 398-432 of `usb_device_in_transaction_completed`: the switch over the
chosen action. -/
def usb_device_in_transaction_completed_switch (env : Env) (ep : hal5_usb_endpoint_t) :
    in_action_t → hal5_usb_endpoint_t × List Event
  | send_more =>
    (hal5_usb_ep_set_status ep ep_status_stall ep_status_valid,
      [Event.ep_set_status ep_status_stall ep_status_valid])
  | send_zlp =>
    let ep := { ep with tx_zlp_sent := true }
    (hal5_usb_ep_set_status ep ep_status_stall ep_status_valid,
      [Event.ep_set_status ep_status_stall ep_status_valid])
  | done => hal5_usb_device_in_stage_completed env ep

def usb_device_in_transaction_completed (env : Env) (ep : hal5_usb_endpoint_t) :
    Except EpStopped (hal5_usb_endpoint_t × List Event) :=
  match usb_device_in_transaction_completed_action ep with
  | .error f => .error (f, ep, [])
  | .ok action => .ok (usb_device_in_transaction_completed_switch env ep action)

def hal5_usb_device_transaction_completed (env : Env) (ep : hal5_usb_endpoint_t) :
    Except EpStopped (hal5_usb_endpoint_t × List Event) :=
  if ep.chep.vtrx then
    let ep := env.hal5_usb_ep_clear_vtrx ep
    if ep.chep.setup then
      match usb_device_setup_transaction_completed env ep with
      | .error (f, ep, t) => .error (f, ep, Event.ep_clear_vtrx :: t)
      | .ok (ep, t) => .ok (ep, Event.ep_clear_vtrx :: t)
    else
      let (ep, t) := usb_device_out_transaction_completed env ep
      .ok (ep, Event.ep_clear_vtrx :: t)
  else if ep.chep.vttx then
    let ep := env.hal5_usb_ep_clear_vttx ep
    match usb_device_in_transaction_completed env ep with
    | .error (f, ep, t) => .error (f, ep, Event.ep_clear_vttx :: t)
    | .ok (ep, t) => .ok (ep, Event.ep_clear_vttx :: t)
  else
    .error (Fault.assert_failed 490, ep, [])

/-! ## Interrupt dispatcher: the transaction-complete branch -/

/-- Lines 604-655 of `USB_DRD_FS_IRQHandler`, on the endpoint object found in
the table: the status value is stored, the direction flags are shifted, the
counters of a new direction are reset, and the byte count of the completed
transaction is added to the counter of its direction (32-bit addition). -/
def irq_ctr_bookkeeping (env : Env) (istr : Nat) (dir_out : Bool)
    (ep : hal5_usb_endpoint_t) : hal5_usb_endpoint_t × List Event :=
  let ep := { ep with istr_v := istr }
  let ep := { ep with last_out := ep.current_out }
  let ep := { ep with current_out := dir_out }
  let ep :=
    if ep.current_out ≠ ep.last_out then
      if ep.current_out then
        { ep with rx_received := 0 }
      else
        let ep := { ep with tx_sent := 0 }
        { ep with tx_zlp_sent := false }
    else ep
  if dir_out then
    let r := env.hal5_usb_device_copy_from_endpoint ep
    let ep := r.1
    let rx_count := r.2
    ({ ep with rx_received := (ep.rx_received + rx_count) % 2 ^ 32 },
      [Event.copy_from_endpoint])
  else
    ({ ep with tx_sent := (ep.tx_sent + ep.txbd.count) % 2 ^ 32 }, [])

/-! ## Sample data for evaluating the model -/

/-- An endpoint object with every field cleared. -/
def ep_zero : hal5_usb_endpoint_t :=
  { endp := 0, dir_in := false, mps := 0, rxbd := ⟨0, 0⟩, txbd := ⟨0, 0⟩,
    chep := ⟨false, false, false⟩, istr_v := 0, rx_status := ep_status_disabled,
    tx_status := ep_status_disabled, rx_data := [], rx_received := 0,
    device_request := none, tx_data_size := 0, tx_sent := 0, tx_sent_limit := 0,
    tx_expected_valid := false, tx_expected := 0, tx_zlp_sent := false,
    last_out := false, current_out := false }

/-- A collaborator set for evaluation: `hal5_usb_ep_create` takes the endpoint
number and direction from `bEndpointAddress` and the packet size from the
descriptor (endpoint 0 when there is none), placing both buffers at
`next_bd_addr`; the other collaborators leave the object as it is. -/
def env0 : Env :=
  { hal5_usb_ep_create := fun ed mps next_bd_addr =>
      match ed with
      | none =>
        { ep_zero with mps := mps, rxbd := ⟨next_bd_addr, 0⟩, txbd := ⟨next_bd_addr, 0⟩ }
      | some d =>
        { ep_zero with
            endp := d.bEndpointAddress &&& 0x7,
            dir_in := decide (d.bEndpointAddress &&& 0x80 ≠ 0),
            mps := d.wMaxPacketSize,
            rxbd := ⟨next_bd_addr, 0⟩, txbd := ⟨next_bd_addr, 0⟩ }
    hal5_usb_ep_sync_from_reg := id
    hal5_usb_ep_sync_to_reg := id
    hal5_usb_ep_prepare_for_out := fun ep tx =>
      { ep with rx_status := ep_status_valid, tx_status := tx }
    hal5_usb_ep_clear_vtrx := fun ep => { ep with chep := { ep.chep with vtrx := false } }
    hal5_usb_ep_clear_vttx := fun ep => { ep with chep := { ep.chep with vttx := false } }
    hal5_usb_device_copy_from_endpoint := fun ep => (ep, ep.rxbd.count)
    hal5_usb_device_copy_to_endpoint := fun ep => (ep, ep.txbd.count)
    hal5_usb_device_ep0_get_standard_request := standard_request_null
    hal5_usb_device_setup_transaction_completed_ep0 := id
    hal5_usb_device_out_stage_completed_ep0 := id
    hal5_usb_device_out_stage_completed_ex := id
    hal5_usb_device_in_stage_completed_ep0 := id
    hal5_usb_device_in_stage_completed_ex := id }

/-- The world after `hal5_usb_device_reset`, before the first bus reset, as far
as this development follows it: state Default, `DADDR` holding `USB_DADDR_EF`,
an empty endpoint table. -/
def world0 : World :=
  { USB_DRD_FS := { CNTR := 0, ISTR := 0, BCDR := 0, DADDR := USB_DADDR_EF },
    usb_device_state := usb_device_state_default,
    usb_device_configuration_value := 0,
    endpoints := fun _ _ => none,
    objects := fun _ => none,
    next_object := 0,
    trace := [] }

/-- The sample world after its first bus reset. -/
def world_reset : World :=
  hal5_usb_device_bus_reset env0 hal5_usb_device_descriptor world0

/-- The sample world after Set-Address(5). -/
def world_address : World :=
  match hal5_usb_device_set_address 5 world_reset with
  | .ok w => w
  | .error _ => world_reset

/-- The sample world after Set-Address(5) and Set-Configuration(1). -/
def world_configured : World :=
  match hal5_usb_device_set_configuration_value env0 hal5_usb_device_descriptor 1
      world_address with
  | .ok r => r.1
  | .error _ => world_address

/-! ## The IN-completion rule in the words of the specification -/

/-- The three-way rule as the specification words it: `send_more` when
`tx_sent` is below `tx_sent_limit`; otherwise `send_zlp` when `tx_sent` is a
multiple of `mps`, no ZLP has been sent yet, and either no expected-length hint
is valid or `tx_sent` is below `tx_expected`; otherwise `done`. -/
def in_action_spec (ep : hal5_usb_endpoint_t) : in_action_t :=
  if ep.tx_sent < ep.tx_sent_limit then send_more
  else if ep.mps ∣ ep.tx_sent ∧ ep.tx_zlp_sent = false ∧
      (ep.tx_expected_valid = false ∨ ep.tx_sent < ep.tx_expected) then send_zlp
  else done

/-- Endpoint 0 with `mps` 64 after a transfer of 100 bytes: the last packet was
short. -/
def ep_in_short : hal5_usb_endpoint_t :=
  { ep_zero with
    mps := 64, chep := ⟨false, true, false⟩, txbd := ⟨64, 36⟩,
    tx_sent := 100, tx_sent_limit := 100, tx_data_size := 100 }

/-- Endpoint 0 with `mps` 64 before the dispatcher sees the completion of a
zero-length IN packet of a transfer with `tx_sent_limit = 0`: the previous
completion was an OUT one, the TX descriptor counts 0 bytes, no hint. -/
def ep_in_empty : hal5_usb_endpoint_t :=
  { ep_zero with
    mps := 64, chep := ⟨false, true, false⟩, txbd := ⟨64, 0⟩,
    tx_sent := 0, tx_sent_limit := 0, current_out := true }

/-- Endpoint 0 with `mps` 64 before the dispatcher sees the completion of the
only packet, 64 bytes, of a 64-byte transfer. -/
def ep_in_first : hal5_usb_endpoint_t :=
  { ep_zero with
    mps := 64, chep := ⟨false, true, false⟩, txbd := ⟨64, 64⟩,
    tx_sent := 0, tx_sent_limit := 64, tx_data_size := 64, current_out := true }

/-- Endpoint 1 (OUT) with `mps` 64 holding a received chunk of 10 bytes. -/
def ep_out_short : hal5_usb_endpoint_t :=
  { ep_zero with endp := 1, mps := 64, chep := ⟨true, false, false⟩, rxbd := ⟨128, 10⟩ }

/-- Endpoint 1 (OUT) with `mps` 64 holding a received chunk of 64 bytes. -/
def ep_out_full : hal5_usb_endpoint_t :=
  { ep_zero with endp := 1, mps := 64, chep := ⟨true, false, false⟩, rxbd := ⟨128, 64⟩ }

/-! ## Relations used in the statements -/

/-- The world `w2` has the state variables and registers of `w` and a trace
that extends the trace of `w`. -/
def same_device (w w2 : World) : Prop :=
  w2.usb_device_state = w.usb_device_state ∧
  w2.usb_device_configuration_value = w.usb_device_configuration_value ∧
  w2.USB_DRD_FS = w.USB_DRD_FS ∧
  ∃ t, w2.trace = w.trace ++ t

/-- The world in which `recreate_endpoints_for_configuration` is entered from
`hal5_usb_device_try_changing_configuration`: the activation hook has been
called with `v` and `v` has been recorded. -/
def world_after_hook (v : Nat) (w : World) : World :=
  { w.emit (Event.set_configuration_ex v) with usb_device_configuration_value := v }

/-! ## Registers: bit masks of the vendor header and the access macros -/

def USB_ISTR_IDN_Msk : Nat := 0xF
def USB_ISTR_DIR_Msk : Nat := 0x10
def USB_ISTR_RESET_Msk : Nat := 0x400
def USB_ISTR_SUSP_Pos : Nat := 11
def USB_ISTR_SUSP_Msk : Nat := 0x800
def USB_ISTR_SUSP : Nat := USB_ISTR_SUSP_Msk
def USB_ISTR_WKUP_Pos : Nat := 12
def USB_ISTR_WKUP : Nat := 0x1000
def USB_ISTR_ERR_Pos : Nat := 13
def USB_ISTR_ERR : Nat := 0x2000
def USB_ISTR_PMAOVR_Pos : Nat := 14
def USB_ISTR_PMAOVR : Nat := 0x4000
def USB_ISTR_CTR : Nat := 0x8000

def USB_CNTR_USBRST : Nat := 0x1
def USB_CNTR_SUSPRDY : Nat := 0x4
def USB_CNTR_SUSPEN : Nat := 0x8
def USB_CNTR_RESETM : Nat := 0x400
def USB_CNTR_SUSPM : Nat := 0x800
def USB_CNTR_WKUPM : Nat := 0x1000
def USB_CNTR_ERRM : Nat := 0x2000
def USB_CNTR_PMAOVRM : Nat := 0x4000
def USB_CNTR_CTRM : Nat := 0x8000
def USB_CNTR_HOST : Nat := 0x80000000

def USB_BCDR_DPPU : Nat := 0x8000

/-- The C operator `~` on a 32-bit value. -/
def not32 (x : Nat) : Nat := 0xFFFFFFFF ^^^ (x % 2 ^ 32)

/-- The macro `SET_BIT(REG, BIT)`: the value `REG |= BIT` stores. -/
def SET_BIT (reg bit : Nat) : Nat := reg ||| bit

/-- The macro `CLEAR_BIT(REG, BIT)`: the value `REG &= ~BIT` stores. -/
def CLEAR_BIT (reg bit : Nat) : Nat := reg &&& not32 bit

/-- Modelled from the spec: a store to the interrupt-status register.  The
flags of `ISTR` are cleared by writing 0 and left as they are by writing 1
(the clearing pattern "without disturbing concurrently-set ones" relies on
it), so the register keeps the flags that were set and are written 1.  The
value stored is traced. -/
def write_ISTR (w : World) (value : Nat) : World :=
  { w with
    USB_DRD_FS := { w.USB_DRD_FS with ISTR := w.USB_DRD_FS.ISTR &&& value },
    trace := w.trace ++ [Event.istr_write value] }

/-- The values stored to `ISTR`, in order, among the traced calls. -/
def istr_writes : List Event → List Nat
  | [] => []
  | Event.istr_write v :: t => v :: istr_writes t
  | _ :: t => istr_writes t

/-! ## Reset, connect and disconnect -/

def hal5_usb_device_reset (w : World) : World :=
  let w := w.emit (Event.sram_memset 0 0 2048)
  let w := { w with usb_device_state := usb_device_state_default }
  let w := { w with USB_DRD_FS := { w.USB_DRD_FS with CNTR := 0x00000001 } }
  let w := write_ISTR w 0
  let w := { w with USB_DRD_FS := { w.USB_DRD_FS with BCDR := 0 } }
  let w := { w with USB_DRD_FS := { w.USB_DRD_FS with DADDR := 0 } }
  let w := { w with USB_DRD_FS :=
    { w.USB_DRD_FS with CNTR := CLEAR_BIT w.USB_DRD_FS.CNTR USB_CNTR_HOST } }
  let w := { w with USB_DRD_FS :=
    { w.USB_DRD_FS with CNTR := SET_BIT w.USB_DRD_FS.CNTR USB_CNTR_RESETM } }
  let w := { w with USB_DRD_FS :=
    { w.USB_DRD_FS with CNTR := SET_BIT w.USB_DRD_FS.CNTR USB_CNTR_CTRM } }
  let w := { w with USB_DRD_FS :=
    { w.USB_DRD_FS with CNTR := SET_BIT w.USB_DRD_FS.CNTR USB_CNTR_PMAOVRM } }
  let w := { w with USB_DRD_FS :=
    { w.USB_DRD_FS with CNTR := SET_BIT w.USB_DRD_FS.CNTR USB_CNTR_SUSPM } }
  let w := { w with USB_DRD_FS :=
    { w.USB_DRD_FS with CNTR := SET_BIT w.USB_DRD_FS.CNTR USB_CNTR_WKUPM } }
  let w := { w with USB_DRD_FS :=
    { w.USB_DRD_FS with CNTR := SET_BIT w.USB_DRD_FS.CNTR USB_CNTR_ERRM } }
  let w := { w with USB_DRD_FS := { w.USB_DRD_FS with DADDR := USB_DADDR_EF } }
  let w := { w with USB_DRD_FS :=
    { w.USB_DRD_FS with CNTR := CLEAR_BIT w.USB_DRD_FS.CNTR USB_CNTR_USBRST } }
  w

def hal5_usb_device_connect (w : World) : World :=
  let w := hal5_usb_device_reset w
  { w with USB_DRD_FS := { w.USB_DRD_FS with BCDR := SET_BIT w.USB_DRD_FS.BCDR USB_BCDR_DPPU } }

def hal5_usb_device_disconnect (w : World) : World :=
  let w := { w with USB_DRD_FS :=
    { w.USB_DRD_FS with BCDR := CLEAR_BIT w.USB_DRD_FS.BCDR USB_BCDR_DPPU } }
  let w := { w with USB_DRD_FS :=
    { w.USB_DRD_FS with CNTR := CLEAR_BIT w.USB_DRD_FS.CNTR USB_CNTR_USBRST } }
  w

/-! ## Interrupt dispatcher -/

/-- The function `hal5_usb_device_bus_error`: it prints a message. -/
def hal5_usb_device_bus_error (w : World) : World := w

/-- The function `hal5_usb_device_suspend`: it prints a message. -/
def hal5_usb_device_suspend (w : World) : World := w

/-- The function `hal5_usb_device_wakeup`: it prints a message. -/
def hal5_usb_device_wakeup (w : World) : World := w

/-- The function `hal5_usb_device_buffer_overflow`: it prints a message. -/
def hal5_usb_device_buffer_overflow (w : World) : World := w

/-- Lines 569-581, the bus reset branch. -/
def irq_reset (env : Env) (dd : hal5_usb_device_descriptor_t) (w : World) : World :=
  let w := write_ISTR w (w.USB_DRD_FS.ISTR &&& not32 USB_ISTR_RESET_Msk)
  let w := write_ISTR w (w.USB_DRD_FS.ISTR &&& not32 USB_ISTR_SUSP_Msk)
  hal5_usb_device_bus_reset env dd w

/-- Lines 659-674: the outgoing bytes are copied when the TX side is valid. -/
def irq_ctr_copy_to (env : Env) (ep : hal5_usb_endpoint_t) :
    hal5_usb_endpoint_t × List Event :=
  if ep.tx_status = ep_status_valid then
    ((env.hal5_usb_device_copy_to_endpoint ep).1, [Event.copy_to_endpoint])
  else
    (ep, [])

/-- Lines 582-679, the transaction-complete branch, `istr` being the status
value read on entry. -/
def irq_ctr (env : Env) (istr : Nat) (w : World) : Except Stopped World :=
  let idn := ((istr &&& USB_ISTR_IDN_Msk) &&& 0xF) % 256
  let dir_out : Bool := decide (istr &&& USB_ISTR_DIR_Msk ≠ 0)
  if ¬ idn < 8 then .error (Fault.out_of_bounds, w)
  else
    match w.endpoints idn (if dir_out then 1 else 0) with
    | none => .error (Fault.assert_failed 599, w)
    | some p =>
      match w.objects p with
      | none => .error (Fault.invalid_pointer, w)
      | some ep =>
        let ep := env.hal5_usb_ep_sync_from_reg ep
        let b := irq_ctr_bookkeeping env istr dir_out ep
        match hal5_usb_device_transaction_completed env b.1 with
        | .error (f, ep, t) =>
          .error (f, { update_object w p (fun _ => ep) with
            trace := w.trace ++ [Event.ep_sync_from_reg] ++ b.2 ++ t })
        | .ok (ep, t) =>
          let c := irq_ctr_copy_to env ep
          let ep := env.hal5_usb_ep_sync_to_reg c.1
          .ok { update_object w p (fun _ => ep) with
            trace := w.trace ++ [Event.ep_sync_from_reg] ++ b.2 ++ t ++ c.2 ++
              [Event.ep_sync_to_reg] }

/-- Lines 680-688, the packet-memory overrun branch. -/
def irq_pmaovr (w : World) : World :=
  let w := write_ISTR w (not32 (1 <<< USB_ISTR_PMAOVR_Pos))
  hal5_usb_device_buffer_overflow w

/-- Lines 689-704, the bus error branch. -/
def irq_err (w : World) : World :=
  let w := write_ISTR w (not32 (1 <<< USB_ISTR_ERR_Pos))
  hal5_usb_device_bus_error w

/-- Lines 705-718, the wake-up branch. -/
def irq_wkup (w : World) : World :=
  let w := write_ISTR w (not32 (1 <<< USB_ISTR_WKUP_Pos))
  let w := hal5_usb_device_wakeup w
  { w with USB_DRD_FS :=
    { w.USB_DRD_FS with CNTR := CLEAR_BIT w.USB_DRD_FS.CNTR USB_CNTR_SUSPEN } }

/-- Lines 719-740, the suspend branch. -/
def irq_susp (w : World) : World :=
  let w := { w with USB_DRD_FS :=
    { w.USB_DRD_FS with CNTR := SET_BIT w.USB_DRD_FS.CNTR USB_CNTR_SUSPEN } }
  let w := write_ISTR w (not32 (1 <<< USB_ISTR_SUSP_Pos))
  let w := { w with USB_DRD_FS :=
    { w.USB_DRD_FS with CNTR := SET_BIT w.USB_DRD_FS.CNTR USB_CNTR_SUSPRDY } }
  hal5_usb_device_suspend w

def USB_DRD_FS_IRQHandler (env : Env) (dd : hal5_usb_device_descriptor_t) (w : World) :
    Except Stopped World :=
  let istr := w.USB_DRD_FS.ISTR
  if istr &&& USB_ISTR_RESET_Msk ≠ 0 then
    .ok (irq_reset env dd w)
  else if istr &&& USB_ISTR_CTR ≠ 0 then
    irq_ctr env istr w
  else if istr &&& USB_ISTR_PMAOVR ≠ 0 then
    .ok (irq_pmaovr w)
  else if istr &&& USB_ISTR_ERR ≠ 0 then
    .ok (irq_err w)
  else if istr &&& USB_ISTR_WKUP ≠ 0 then
    .ok (irq_wkup w)
  else if istr &&& USB_ISTR_SUSP ≠ 0 then
    .ok (irq_susp w)
  else
    .error (Fault.assert_failed 744, w)

/-! ## The dispatcher priority in the words of the specification -/

/-- The six interrupt categories. -/
inductive irq_category_t where
  | bus_reset
  | transaction_complete
  | pma_overrun
  | bus_error
  | wake_up
  | suspend
deriving DecidableEq, Repr

/-- The status bit of a category. -/
def irq_category_bit : irq_category_t → Nat
  | .bus_reset => USB_ISTR_RESET_Msk
  | .transaction_complete => USB_ISTR_CTR
  | .pma_overrun => USB_ISTR_PMAOVR
  | .bus_error => USB_ISTR_ERR
  | .wake_up => USB_ISTR_WKUP
  | .suspend => USB_ISTR_SUSP

/-- The categories in the priority order of the specification. -/
def irq_priority : List irq_category_t :=
  [.bus_reset, .transaction_complete, .pma_overrun, .bus_error, .wake_up, .suspend]

/-- The category to handle: the first one, in priority order, whose bit is set
in the status value. -/
def irq_category_spec (istr : Nat) : Option irq_category_t :=
  irq_priority.find? (fun c => decide (istr &&& irq_category_bit c ≠ 0))

/-- The handling of one category: the body of its branch. -/
def irq_handle (env : Env) (dd : hal5_usb_device_descriptor_t) (w : World) :
    irq_category_t → Except Stopped World
  | .bus_reset => .ok (irq_reset env dd w)
  | .transaction_complete => irq_ctr env w.USB_DRD_FS.ISTR w
  | .pma_overrun => .ok (irq_pmaovr w)
  | .bus_error => .ok (irq_err w)
  | .wake_up => .ok (irq_wkup w)
  | .suspend => .ok (irq_susp w)

/-- Lines 604-621 of `USB_DRD_FS_IRQHandler`: the endpoint object once the
status value is stored, the direction flags are shifted and the counters of a
new direction are reset, before the byte count is added. -/
def irq_ctr_edge (istr : Nat) (dir_out : Bool) (ep : hal5_usb_endpoint_t) :
    hal5_usb_endpoint_t :=
  let ep := { ep with istr_v := istr }
  let ep := { ep with last_out := ep.current_out }
  let ep := { ep with current_out := dir_out }
  if ep.current_out ≠ ep.last_out then
    if ep.current_out then
      { ep with rx_received := 0 }
    else
      let ep := { ep with tx_sent := 0 }
      { ep with tx_zlp_sent := false }
  else ep

/-- The copy routine leaves the transfer counters and the direction flags of
the endpoint object as they are. -/
def copy_keeps_counters (env : Env) : Prop :=
  ∀ e : hal5_usb_endpoint_t,
    (env.hal5_usb_device_copy_from_endpoint e).1.rx_received = e.rx_received ∧
    (env.hal5_usb_device_copy_from_endpoint e).1.tx_sent = e.tx_sent ∧
    (env.hal5_usb_device_copy_from_endpoint e).1.tx_zlp_sent = e.tx_zlp_sent ∧
    (env.hal5_usb_device_copy_from_endpoint e).1.last_out = e.last_out ∧
    (env.hal5_usb_device_copy_from_endpoint e).1.current_out = e.current_out

/-- The sample world after `hal5_usb_device_connect`. -/
def world_connected : World := hal5_usb_device_connect world0

/-- The connected sample world when the host resets the bus: the status
register shows the reset and the suspend flag. -/
def world_irq_reset : World :=
  { world_connected with
    USB_DRD_FS := { world_connected.USB_DRD_FS with ISTR := 0x0C00 } }

/-- Endpoint 1 (OUT) with `mps` 64 after an IN completion, 10 bytes waiting in
its RX buffer. -/
def ep_out_edge : hal5_usb_endpoint_t :=
  { ep_zero with
    endp := 1, mps := 64, chep := ⟨true, false, false⟩, rxbd := ⟨128, 10⟩,
    rx_received := 33, tx_sent := 7, current_out := false }

/-- The faults of a memory access: a pointer that is null or released, an
index outside its array. -/
def memory_fault (f : Fault) : Prop :=
  f = Fault.invalid_pointer ∨ f = Fault.out_of_bounds

/-! ## Reachable worlds -/

/-- The worlds reachable from `hal5_usb_device_connect` by bus resets and by
calls of `hal5_usb_device_set_address` and
`hal5_usb_device_set_configuration_value` that return (their preconditions
hold).  The second index is the argument of the last
`hal5_usb_device_set_address` call, if there was one. -/
inductive Reachable (env : Env) (dd : hal5_usb_device_descriptor_t) :
    World → Option Nat → Prop where
  | connect (w : World) : Reachable env dd (hal5_usb_device_connect w) none
  | bus_reset {w : World} {last : Option Nat} :
      Reachable env dd w last → Reachable env dd (hal5_usb_device_bus_reset env dd w) last
  | set_address {w w2 : World} {last : Option Nat} (address : Nat) :
      Reachable env dd w last → hal5_usb_device_set_address address w = .ok w2 →
      Reachable env dd w2 (some address)
  | set_configuration_value {w w2 : World} {last : Option Nat} (v : Nat) (r : Bool) :
      Reachable env dd w last →
      hal5_usb_device_set_configuration_value env dd v w = .ok (w2, r) →
      Reachable env dd w2 last

/-- The connected sample world after its first bus reset. -/
def world_c1 : World :=
  hal5_usb_device_bus_reset env0 hal5_usb_device_descriptor world_connected

/-- The connected sample world after bus reset and Set-Address(5). -/
def world_c2 : World :=
  match hal5_usb_device_set_address 5 world_c1 with
  | .ok w => w
  | .error _ => world_c1

/-- The connected sample world after bus reset, Set-Address(5) and
Set-Configuration(1). -/
def world_c3 : World :=
  match hal5_usb_device_set_configuration_value env0 hal5_usb_device_descriptor 1 world_c2 with
  | .ok r => r.1
  | .error _ => world_c2

/-! ## The buffer layout and the registry after endpoint recreation -/

/-- The endpoint descriptors of an interface that the inner loop visits. -/
def interface_endpoints (id : hal5_usb_interface_descriptor_t) :
    List hal5_usb_endpoint_descriptor_t :=
  id.endpoints.take id.bNumEndpoints

/-- The endpoint descriptors of a list of interfaces, interface by interface. -/
def endpoints_of_interfaces :
    List hal5_usb_interface_descriptor_t → List hal5_usb_endpoint_descriptor_t
  | [] => []
  | id :: ids => interface_endpoints id ++ endpoints_of_interfaces ids

/-- The endpoint descriptors of a configuration in the order the loops of
lines 81-104 visit them. -/
def cd_endpoints (cd : hal5_usb_configuration_descriptor_t) :
    List hal5_usb_endpoint_descriptor_t :=
  endpoints_of_interfaces (cd.interfaces.take cd.bNumInterfaces)

/-- The loop body of lines 86-103 run over a list of endpoint descriptors. -/
def recreate_steps (env : Env) :
    List hal5_usb_endpoint_descriptor_t → World × Nat → Except Stopped (World × Nat)
  | [], s => .ok s
  | ed :: eds, s =>
    match recreate_endpoint_step env ed s with
    | .error e => .error e
    | .ok s => recreate_steps env eds s

/-- Line 92: the statement commented "word align the addr if needed". -/
def align_cursor (next_bd_addr : Nat) : Nat :=
  (next_bd_addr + (next_bd_addr &&& 0x3)) % 2 ^ 32

/-- The buffer addresses lines 92-101 compute for a list of endpoint
descriptors from a starting cursor. -/
def bd_addrs : Nat → List hal5_usb_endpoint_descriptor_t → List Nat
  | _, [] => []
  | cur, ed :: eds =>
    align_cursor cur :: bd_addrs ((align_cursor cur + ed.wMaxPacketSize) % 2 ^ 32) eds

/-- The buffer addresses passed to `hal5_usb_ep_create`, in order, among the
traced calls. -/
def created_addrs : List Event → List Nat
  | [] => []
  | Event.ep_create _ _ a _ :: t => a :: created_addrs t
  | _ :: t => created_addrs t

/-- Modelled from the spec: the endpoint number a descriptor declares, the low
four bits of its "direction/address byte" `bEndpointAddress`. -/
def ed_endp (ed : hal5_usb_endpoint_descriptor_t) : Nat :=
  ed.bEndpointAddress &&& 0xF

/-- Modelled from the spec: the direction a descriptor declares, IN when bit 7
of its "direction/address byte" `bEndpointAddress` is set. -/
def ed_dir_in (ed : hal5_usb_endpoint_descriptor_t) : Bool :=
  decide (ed.bEndpointAddress &&& 0x80 ≠ 0)

/-- The second index of the table slot of a descriptor: 0 for IN, 1 for OUT. -/
def ed_slot (ed : hal5_usb_endpoint_descriptor_t) : Nat :=
  if ed_dir_in ed then 0 else 1

/-- The collaborator `hal5_usb_ep_create` gives the created object the
endpoint number and the direction its descriptor declares. -/
def create_follows_descriptor (env : Env) : Prop :=
  ∀ (ed : hal5_usb_endpoint_descriptor_t) (mps a : Nat),
    (env.hal5_usb_ep_create (some ed) mps a).endp = ed_endp ed ∧
    (env.hal5_usb_ep_create (some ed) mps a).dir_in = ed_dir_in ed

/-- The sample collaborators, `hal5_usb_ep_create` taking the four-bit endpoint
number of the descriptor. -/
def env1 : Env :=
  { env0 with
    hal5_usb_ep_create := fun ed mps next_bd_addr =>
      match ed with
      | none =>
        { ep_zero with mps := mps, rxbd := ⟨next_bd_addr, 0⟩, txbd := ⟨next_bd_addr, 0⟩ }
      | some d =>
        { ep_zero with
            endp := ed_endp d,
            dir_in := ed_dir_in d,
            mps := d.wMaxPacketSize,
            rxbd := ⟨next_bd_addr, 0⟩, txbd := ⟨next_bd_addr, 0⟩ } }

/-- A configuration with an interrupt OUT endpoint 1 of 9 bytes followed by a
bulk IN endpoint 2 of 64 bytes. -/
def cd_9_64 : hal5_usb_configuration_descriptor_t :=
  { hal5_usb_configuration_descriptor_0 with
    wTotalLength := 32,
    interfaces := [{ hal5_usb_interface_descriptor_0 with
      bNumEndpoints := 2,
      endpoints := [
        { bLength := 7, bDescriptorType := 0x05, bEndpointAddress := 0x01,
          bmAttributes := 0x03, wMaxPacketSize := 9 },
        { bLength := 7, bDescriptorType := 0x05, bEndpointAddress := 0x82,
          bmAttributes := 0x02, wMaxPacketSize := 64 }] }] }

/-- A configuration with a bulk IN endpoint 1 of 64 bytes followed by a bulk
OUT endpoint 2 of 32 bytes. -/
def cd_64_32 : hal5_usb_configuration_descriptor_t :=
  { hal5_usb_configuration_descriptor_0 with
    wTotalLength := 32,
    interfaces := [{ hal5_usb_interface_descriptor_0 with
      bNumEndpoints := 2,
      endpoints := [
        { bLength := 7, bDescriptorType := 0x05, bEndpointAddress := 0x81,
          bmAttributes := 0x02, wMaxPacketSize := 64 },
        { bLength := 7, bDescriptorType := 0x05, bEndpointAddress := 0x02,
          bmAttributes := 0x02, wMaxPacketSize := 32 }] }] }

/-- The world and the cursor the loop body of lines 86-103 leaves when the
created object carries an endpoint number below 8. -/
def recreate_endpoint_result (env : Env) (ed : hal5_usb_endpoint_descriptor_t)
    (s : World × Nat) : World × Nat :=
  ({ s.1 with
      objects := fun r =>
        if r = s.1.next_object then
          some (env.hal5_usb_ep_create (some ed) 0 (align_cursor s.2))
        else s.1.objects r,
      next_object := s.1.next_object + 1,
      trace := s.1.trace ++
        [Event.ep_create (some ed) 0 (align_cursor s.2) s.1.next_object],
      endpoints := set_endpoint s.1.endpoints
        (env.hal5_usb_ep_create (some ed) 0 (align_cursor s.2)).endp
        (if (env.hal5_usb_ep_create (some ed) 0 (align_cursor s.2)).dir_in then 0 else 1)
        (some s.1.next_object) },
    (align_cursor s.2 + ed.wMaxPacketSize) % 2 ^ 32)

/-- The sample world in Address state after endpoint recreation for the
configuration `cd_64_32`. -/
def world_64_32 : World :=
  match recreate_endpoints_for_configuration env1 cd_64_32 world_address with
  | .ok w => w
  | .error _ => world_address

/-! ## Sample data of the last theorems -/

/-- Endpoint 0 with `mps` 64 after the 8 bytes of a SETUP packet arrived: the
RX-complete and the setup indicator are set. -/
def ep_setup : hal5_usb_endpoint_t :=
  { ep_zero with
    mps := 64, chep := ⟨true, false, true⟩, rxbd := ⟨128, 8⟩,
    rx_data := [0x00, 0x05, 0x05, 0x00, 0x00, 0x00, 0x00, 0x00],
    rx_received := 8, current_out := true }

/-- Endpoint 0 with `mps` 64 holding a short OUT chunk of 10 bytes, with both
the RX-complete and the TX-complete indicator set. -/
def ep_both : hal5_usb_endpoint_t :=
  { ep_zero with
    mps := 64, chep := ⟨true, true, false⟩, rxbd := ⟨128, 10⟩,
    rx_received := 10, current_out := true }

/-- The sample collaborators with a standard request pending on endpoint 0. -/
def env_pending : Env :=
  { env0 with hal5_usb_device_ep0_get_standard_request := standard_request_other 5 }

/-- The connected sample world after its first bus reset when a transaction
completes with the number 8 in the `IDN` field of the status register. -/
def world_irq_idn8 : World :=
  { world_c1 with
    USB_DRD_FS := { world_c1.USB_DRD_FS with ISTR := 0x8008 } }

/-- The connected sample world after its first bus reset when an IN
transaction of endpoint 0 is reported complete (status value 0x8000). -/
def world_irq_ctr : World :=
  { world_c1 with
    USB_DRD_FS := { world_c1.USB_DRD_FS with ISTR := 0x8000 } }

/-! ## Theorems: device state machine -/

/-- C1: for every address `a` in 0..127 and every prior state Default or
Address, `hal5_usb_device_set_address a` returns; the device state is Default
when `a = 0` and Address when `a ≠ 0`, never Configured, and the value written
to `DADDR` is `0x80 | a`. -/
theorem set_address_state_and_daddr (a : Nat) (w : World) (ha : a ≤ 127)
    (hs : w.usb_device_state = usb_device_state_default ∨
      w.usb_device_state = usb_device_state_address) :
    ∃ w2, hal5_usb_device_set_address a w = .ok w2 ∧
      (a = 0 → w2.usb_device_state = usb_device_state_default) ∧
      (a ≠ 0 → w2.usb_device_state = usb_device_state_address) ∧
      w2.usb_device_state ≠ usb_device_state_configured ∧
      w2.USB_DRD_FS.DADDR = 0x80 ||| a := by
  by_cases h0 : a = 0
  · subst h0
    simp [hal5_usb_device_set_address, hs]
  · simp [hal5_usb_device_set_address, hs, ha, h0]

theorem set_address_state_and_daddr_witness :
    (5 ≤ 127 ∧ (world_reset.usb_device_state = usb_device_state_default ∨
      world_reset.usb_device_state = usb_device_state_address)) ∧
    ∃ w2, hal5_usb_device_set_address 5 world_reset = .ok w2 ∧
      (5 = 0 → w2.usb_device_state = usb_device_state_default) ∧
      (5 ≠ 0 → w2.usb_device_state = usb_device_state_address) ∧
      w2.usb_device_state ≠ usb_device_state_configured ∧
      w2.USB_DRD_FS.DADDR = 0x80 ||| 5 :=
  ⟨⟨by decide, Or.inl rfl⟩,
    set_address_state_and_daddr 5 world_reset (by decide) (Or.inl rfl)⟩

/-- C2: from Configured state, with any active configuration value,
`hal5_usb_device_set_configuration_value 0` returns true and leaves the state
Address and the active configuration value 0. -/
theorem set_configuration_zero_from_configured (env : Env)
    (dd : hal5_usb_device_descriptor_t) (w : World)
    (hs : w.usb_device_state = usb_device_state_configured) :
    ∃ w2, hal5_usb_device_set_configuration_value env dd 0 w = .ok (w2, true) ∧
      w2.usb_device_state = usb_device_state_address ∧
      w2.usb_device_configuration_value = 0 := by
  simp [hal5_usb_device_set_configuration_value, hs, World.emit]

theorem set_configuration_zero_from_configured_witness :
    world_configured.usb_device_state = usb_device_state_configured ∧
    ∃ w2, hal5_usb_device_set_configuration_value env0 hal5_usb_device_descriptor 0
        world_configured = .ok (w2, true) ∧
      w2.usb_device_state = usb_device_state_address ∧
      w2.usb_device_configuration_value = 0 :=
  ⟨rfl, set_configuration_zero_from_configured env0 hal5_usb_device_descriptor
    world_configured rfl⟩

/-- The scan of the configuration list finds nothing and changes nothing when
no descriptor carries the requested value. -/
theorem try_changing_configuration_loop_no_match (env : Env)
    (dd : hal5_usb_device_descriptor_t) (v : Nat) (w : World)
    (hv : ∀ cd ∈ dd.configurations, cd.bConfigurationValue ≠ v) :
    ∀ is : List Nat, (∀ i ∈ is, i < dd.configurations.length) →
      try_changing_configuration_loop env dd v is w = .ok (w, false) := by
  intro is
  induction is with
  | nil => intro _; rfl
  | cons i is ih =>
    intro hb
    have hi : i < dd.configurations.length := hb i (List.mem_cons_self _ _)
    have hne : ¬ v = (dd.configurations[i]).bConfigurationValue :=
      fun h => hv _ (List.getElem_mem hi) h.symm
    simp only [try_changing_configuration_loop, List.getElem?_eq_getElem hi, if_neg hne]
    exact ih (fun j hj => hb j (List.mem_cons_of_mem _ hj))

/-- C3: for a non-zero value `v` carried by no configuration descriptor of the
device descriptor, from Address or Configured state,
`hal5_usb_device_set_configuration_value v` returns false and the world it
returns is the world it was given: state, active configuration value, endpoint
table, endpoint objects and the trace of outgoing calls (so the activation hook
was not called) are the same. -/
theorem set_configuration_no_match_unchanged (env : Env)
    (dd : hal5_usb_device_descriptor_t) (v : Nat) (w : World)
    (hlen : dd.bNumConfigurations = dd.configurations.length)
    (hv0 : v ≠ 0)
    (hv : ∀ cd ∈ dd.configurations, cd.bConfigurationValue ≠ v)
    (hs : w.usb_device_state = usb_device_state_address ∨
      w.usb_device_state = usb_device_state_configured) :
    hal5_usb_device_set_configuration_value env dd v w = .ok (w, false) := by
  have hloop : hal5_usb_device_try_changing_configuration env dd v w = .ok (w, false) := by
    have hpos : v > 0 := Nat.pos_of_ne_zero hv0
    simp only [hal5_usb_device_try_changing_configuration, not_not, hpos, not_true_eq_false,
      if_false]
    apply try_changing_configuration_loop_no_match env dd v w hv
    intro i hi
    rw [← hlen]
    exact List.mem_range.mp hi
  rcases hs with hs | hs
  · simp [hal5_usb_device_set_configuration_value, hs, hv0, hloop]
  · simp [hal5_usb_device_set_configuration_value, hs, hv0, hloop]

theorem set_configuration_no_match_unchanged_witness :
    (hal5_usb_device_descriptor.bNumConfigurations =
        hal5_usb_device_descriptor.configurations.length ∧
      2 ≠ 0 ∧
      (∀ cd ∈ hal5_usb_device_descriptor.configurations, cd.bConfigurationValue ≠ 2) ∧
      (world_configured.usb_device_state = usb_device_state_address ∨
        world_configured.usb_device_state = usb_device_state_configured)) ∧
    hal5_usb_device_set_configuration_value env0 hal5_usb_device_descriptor 2
      world_configured = .ok (world_configured, false) :=
  ⟨⟨rfl, by decide, by decide, Or.inr rfl⟩,
    set_configuration_no_match_unchanged env0 hal5_usb_device_descriptor 2 world_configured
      rfl (by decide) (by decide) (Or.inr rfl)⟩

/-- What bus reset does to the state variables and to `DADDR`: the state
is Default, the recorded configuration value is the one found, and `DADDR` is
rewritten with `USB_DADDR_EF` unless the state was Default already. -/
theorem bus_reset_frame (env : Env) (dd : hal5_usb_device_descriptor_t) (w : World) :
    (hal5_usb_device_bus_reset env dd w).usb_device_state = usb_device_state_default ∧
    (hal5_usb_device_bus_reset env dd w).usb_device_configuration_value =
      w.usb_device_configuration_value ∧
    (hal5_usb_device_bus_reset env dd w).USB_DRD_FS.DADDR =
      (if w.usb_device_state = usb_device_state_default then w.USB_DRD_FS.DADDR
       else USB_DADDR_EF) := by
  cases hs : w.usb_device_state <;>
    simp [hal5_usb_device_bus_reset, hs, hal5_usb_ep_free, ep_create, update_object,
      World.emit]

/-- C5 (the code at the failing input): the sample world, enumerated with
Set-Address(5) and Set-Configuration(1), is in Configured state with active
configuration value 1; after `hal5_usb_device_bus_reset` the state is Default
and `usb_device_configuration_value` is still 1, not 0. -/
theorem bus_reset_keeps_configuration_value :
    world_configured.usb_device_state = usb_device_state_configured ∧
    world_configured.usb_device_configuration_value = 1 ∧
    (hal5_usb_device_bus_reset env0 hal5_usb_device_descriptor
      world_configured).usb_device_state = usb_device_state_default ∧
    (hal5_usb_device_bus_reset env0 hal5_usb_device_descriptor
      world_configured).usb_device_configuration_value = 1 :=
  ⟨rfl, rfl, rfl, rfl⟩

/-- C6: from every prior state `hal5_usb_device_bus_reset` leaves the state
Default; a second bus reset right after the first leaves the state, the active
configuration value and `DADDR` as the first one left them; from Default a bus
reset changes neither the state nor `DADDR`. -/
theorem bus_reset_default_and_idempotent (env : Env) (dd : hal5_usb_device_descriptor_t)
    (w : World) :
    (hal5_usb_device_bus_reset env dd w).usb_device_state = usb_device_state_default ∧
    (hal5_usb_device_bus_reset env dd
        (hal5_usb_device_bus_reset env dd w)).usb_device_state =
      (hal5_usb_device_bus_reset env dd w).usb_device_state ∧
    (hal5_usb_device_bus_reset env dd
        (hal5_usb_device_bus_reset env dd w)).usb_device_configuration_value =
      (hal5_usb_device_bus_reset env dd w).usb_device_configuration_value ∧
    (hal5_usb_device_bus_reset env dd
        (hal5_usb_device_bus_reset env dd w)).USB_DRD_FS.DADDR =
      (hal5_usb_device_bus_reset env dd w).USB_DRD_FS.DADDR ∧
    (w.usb_device_state = usb_device_state_default →
      (hal5_usb_device_bus_reset env dd w).usb_device_state = w.usb_device_state ∧
      (hal5_usb_device_bus_reset env dd w).USB_DRD_FS.DADDR = w.USB_DRD_FS.DADDR) := by
  have h1 := bus_reset_frame env dd w
  have h2 := bus_reset_frame env dd (hal5_usb_device_bus_reset env dd w)
  refine ⟨h1.1, ?_, h2.2.1, ?_, ?_⟩
  · rw [h2.1, h1.1]
  · rw [h2.2.2, if_pos h1.1]
  · intro hd
    refine ⟨by rw [h1.1, hd], ?_⟩
    rw [h1.2.2, if_pos hd]

/-! ## Theorems: endpoint recreation returns and keeps the device variables -/

theorem same_device_refl (w : World) : same_device w w :=
  ⟨rfl, rfl, rfl, [], by simp⟩

theorem same_device_trans {w1 w2 w3 : World} (h12 : same_device w1 w2)
    (h23 : same_device w2 w3) : same_device w1 w3 := by
  obtain ⟨a1, a2, a3, t1, a4⟩ := h12
  obtain ⟨b1, b2, b3, t2, b4⟩ := h23
  exact ⟨b1.trans a1, b2.trans a2, b3.trans a3, t1 ++ t2, by rw [b4, a4, List.append_assoc]⟩

/-- Releasing a pointer other than `p0` leaves the object at `p0` alone. -/
theorem ep_free_objects_ne (w : World) (p : Option Nat) (p0 : Nat) (h : p ≠ some p0) :
    (hal5_usb_ep_free w p).objects p0 = w.objects p0 := by
  cases p with
  | none => rfl
  | some q =>
    have hq : p0 ≠ q := fun e => h (by rw [e])
    simp [hal5_usb_ep_free, hq]

/-- The release loop keeps the device variables, the slots of the endpoint
numbers it does not visit, and every object no visited slot points to. -/
theorem free_endpoints_loop_frame (p0 : Nat) :
    ∀ (is : List Nat) (w : World), 0 ∉ is →
      (∀ i ∈ is, w.endpoints i 0 ≠ some p0 ∧ w.endpoints i 1 ≠ some p0) →
      same_device w (free_endpoints_loop is w) ∧
      (free_endpoints_loop is w).endpoints 0 0 = w.endpoints 0 0 ∧
      (free_endpoints_loop is w).objects p0 = w.objects p0 := by
  intro is
  induction is with
  | nil => intro w _ _; exact ⟨same_device_refl w, rfl, rfl⟩
  | cons i is ih =>
    intro w h0 hne
    have hi0 : i ≠ 0 := fun h => h0 (by simp [h])
    have h0is : 0 ∉ is := fun h => h0 (List.mem_cons_of_mem _ h)
    obtain ⟨hi_a, hi_b⟩ := hne i (List.mem_cons_self _ _)
    have hnext : ∀ j ∈ is, (free_endpoints_body i w).endpoints j 0 ≠ some p0 ∧
        (free_endpoints_body i w).endpoints j 1 ≠ some p0 := by
      intro j hj
      have hj2 := hne j (List.mem_cons_of_mem _ hj)
      by_cases hji : j = i
      · subst hji
        simp [free_endpoints_body, set_endpoint, hal5_usb_ep_free]
      · simp [free_endpoints_body, set_endpoint, hal5_usb_ep_free, hji, hj2.1, hj2.2]
    obtain ⟨hsd, he, ho⟩ := ih (free_endpoints_body i w) h0is hnext
    simp only [free_endpoints_loop]
    refine ⟨same_device_trans ?_ hsd, ?_, ?_⟩
    · exact ⟨rfl, rfl, rfl, [Event.ep_free (w.endpoints i 0), Event.ep_free (w.endpoints i 1)],
        by simp [free_endpoints_body, hal5_usb_ep_free]⟩
    · rw [he]
      simp [free_endpoints_body, set_endpoint, hal5_usb_ep_free, Ne.symm hi0]
    · rw [ho]
      show (hal5_usb_ep_free (hal5_usb_ep_free w (w.endpoints i 0))
        (w.endpoints i 1)).objects p0 = w.objects p0
      rw [ep_free_objects_ne _ _ _ hi_b, ep_free_objects_ne _ _ _ hi_a]

/-- One endpoint is created and registered without a fault when the created
object carries an endpoint number below 8. -/
theorem recreate_endpoint_step_ok (env : Env)
    (hcreate : ∀ ed mps a, (env.hal5_usb_ep_create ed mps a).endp < 8)
    (ed : hal5_usb_endpoint_descriptor_t) (s : World × Nat) :
    ∃ s2, recreate_endpoint_step env ed s = .ok s2 ∧ same_device s.1 s2.1 := by
  simp only [recreate_endpoint_step, ep_create, if_pos, hcreate]
  exact ⟨_, rfl, rfl, rfl, rfl, _, rfl⟩

theorem recreate_endpoints_loop_ok (env : Env)
    (hcreate : ∀ ed mps a, (env.hal5_usb_ep_create ed mps a).endp < 8)
    (id : hal5_usb_interface_descriptor_t) :
    ∀ (eis : List Nat) (s : World × Nat), (∀ ei ∈ eis, ei < id.endpoints.length) →
      ∃ s2, recreate_endpoints_loop env id eis s = .ok s2 ∧ same_device s.1 s2.1 := by
  intro eis
  induction eis with
  | nil => intro s _; exact ⟨s, rfl, same_device_refl _⟩
  | cons ei eis ih =>
    intro s hb
    have hei : ei < id.endpoints.length := hb ei (List.mem_cons_self _ _)
    obtain ⟨s1, h1, hsd1⟩ := recreate_endpoint_step_ok env hcreate (id.endpoints[ei]) s
    obtain ⟨s2, h2, hsd2⟩ := ih s1 (fun j hj => hb j (List.mem_cons_of_mem _ hj))
    refine ⟨s2, ?_, same_device_trans hsd1 hsd2⟩
    simp only [recreate_endpoints_loop, List.getElem?_eq_getElem hei, h1, h2]

theorem recreate_interfaces_loop_ok (env : Env)
    (hcreate : ∀ ed mps a, (env.hal5_usb_ep_create ed mps a).endp < 8)
    (cd : hal5_usb_configuration_descriptor_t)
    (hwf : ∀ id ∈ cd.interfaces, interface_wf id) :
    ∀ (iis : List Nat) (s : World × Nat), (∀ ii ∈ iis, ii < cd.interfaces.length) →
      ∃ s2, recreate_interfaces_loop env cd iis s = .ok s2 ∧ same_device s.1 s2.1 := by
  intro iis
  induction iis with
  | nil => intro s _; exact ⟨s, rfl, same_device_refl _⟩
  | cons ii iis ih =>
    intro s hb
    have hii : ii < cd.interfaces.length := hb ii (List.mem_cons_self _ _)
    have hid : interface_wf (cd.interfaces[ii]) := hwf _ (List.getElem_mem hii)
    obtain ⟨s1, h1, hsd1⟩ := recreate_endpoints_loop_ok env hcreate (cd.interfaces[ii])
      (List.range (cd.interfaces[ii]).bNumEndpoints) s
      (fun j hj => Nat.lt_of_lt_of_le (List.mem_range.mp hj) hid)
    obtain ⟨s2, h2, hsd2⟩ := ih s1 (fun j hj => hb j (List.mem_cons_of_mem _ hj))
    refine ⟨s2, ?_, same_device_trans hsd1 hsd2⟩
    simp only [recreate_interfaces_loop, List.getElem?_eq_getElem hii, h1, h2]

/-- Endpoint recreation returns, and keeps the device variables, when the
descriptor arrays are as long as their counts say, endpoint 0 is registered
with a live object that no slot of the endpoints 1..7 points to, and created
objects carry endpoint numbers below 8. -/
theorem recreate_endpoints_for_configuration_ok (env : Env)
    (hcreate : ∀ ed mps a, (env.hal5_usb_ep_create ed mps a).endp < 8)
    (cd : hal5_usb_configuration_descriptor_t) (hcd : configuration_wf cd)
    (w : World) (p0 : Nat) (ep0 : hal5_usb_endpoint_t)
    (hp0 : w.endpoints 0 0 = some p0) (hep0 : w.objects p0 = some ep0)
    (hal : ∀ i d, 1 ≤ i → w.endpoints i d ≠ some p0) :
    ∃ w2, recreate_endpoints_for_configuration env cd w = .ok w2 ∧ same_device w w2 := by
  have hfree := free_endpoints_loop_frame p0 [1, 2, 3, 4, 5, 6, 7]
    (w.emit (Event.sram_memset 8 0 (7 * 8))) (by decide)
    (fun i hi => by
      have h1 : 1 ≤ i := by
        simp only [List.mem_cons, List.mem_singleton, List.not_mem_nil, or_false] at hi
        omega
      exact ⟨hal i 0 h1, hal i 1 h1⟩)
  obtain ⟨hsd, he, ho⟩ := hfree
  have hsd0 : same_device w (w.emit (Event.sram_memset 8 0 (7 * 8))) :=
    ⟨rfl, rfl, rfl, _, rfl⟩
  obtain ⟨s2, h2, hsd2⟩ := recreate_interfaces_loop_ok env hcreate cd hcd.2
    (List.range cd.bNumInterfaces)
    (free_endpoints_loop [1, 2, 3, 4, 5, 6, 7] (w.emit (Event.sram_memset 8 0 (7 * 8))),
      ep0.rxbd.addr)
    (fun j hj => Nat.lt_of_lt_of_le (List.mem_range.mp hj) hcd.1)
  refine ⟨s2.1, ?_, same_device_trans hsd0 (same_device_trans hsd hsd2)⟩
  have he2 : (free_endpoints_loop [1, 2, 3, 4, 5, 6, 7]
      (w.emit (Event.sram_memset 8 0 (7 * 8)))).endpoints 0 0 = some p0 := by
    rw [he]; exact hp0
  have ho2 : (free_endpoints_loop [1, 2, 3, 4, 5, 6, 7]
      (w.emit (Event.sram_memset 8 0 (7 * 8)))).objects p0 = some ep0 := by
    rw [ho]; exact hep0
  simp only [recreate_endpoints_for_configuration, he2, ho2, h2]

/-- The scan of the configuration list, started at index `k`, stops at the
first descriptor from `k` on that carries the requested value, and there calls
the hook, records the value and recreates the endpoints for that descriptor. -/
theorem try_changing_configuration_loop_match (env : Env)
    (dd : hal5_usb_device_descriptor_t) (v : Nat) (w : World)
    (cd : hal5_usb_configuration_descriptor_t) :
    ∀ (m k : Nat), k + m = dd.configurations.length →
      (dd.configurations.drop k).find? (fun c => decide (v = c.bConfigurationValue)) = some cd →
      try_changing_configuration_loop env dd v (List.range' k m) w =
        match recreate_endpoints_for_configuration env cd (world_after_hook v w) with
        | .error f => .error f
        | .ok w2 => .ok (w2, true) := by
  intro m
  induction m with
  | zero =>
    intro k hk hfind
    have : dd.configurations.drop k = [] := List.drop_eq_nil_of_le (by omega)
    rw [this] at hfind
    simp at hfind
  | succ m ih =>
    intro k hk hfind
    have hlt : k < dd.configurations.length := by omega
    rw [List.drop_eq_getElem_cons hlt] at hfind
    rw [List.range'_succ]
    simp only [try_changing_configuration_loop, List.getElem?_eq_getElem hlt]
    by_cases hv : v = (dd.configurations[k]).bConfigurationValue
    · rw [List.find?_cons_of_pos _ (by simpa using hv)] at hfind
      have hcd : dd.configurations[k] = cd := by simpa using hfind
      rw [if_pos hv, hcd]
      rfl
    · rw [List.find?_cons_of_neg _ (by simpa using hv)] at hfind
      rw [if_neg hv]
      exact ih (k + 1) (by omega) hfind

/-- C4: for a non-zero value `v` carried by some configuration descriptor, from
Address or Configured state, `hal5_usb_device_set_configuration_value v`
returns true; the world it returns is the one endpoint recreation produces for
`cd`, the first descriptor in list order whose `bConfigurationValue` is `v`,
entered after the activation hook was called with `v` and `v` was recorded,
with the state set to Configured; the hook call with `v` is in the trace; a
following `hal5_usb_device_get_configuration_value` returns `v`; and in Address
state `hal5_usb_device_get_configuration_value` returns 0.  The descriptor
arrays are as long as their counts say, endpoint 0 is registered with a live
object of its own, and created objects carry endpoint numbers below 8. -/
theorem set_configuration_match (env : Env) (dd : hal5_usb_device_descriptor_t)
    (v : Nat) (w : World) (p0 : Nat) (ep0 : hal5_usb_endpoint_t)
    (hdd : device_wf dd)
    (hcreate : ∀ ed mps a, (env.hal5_usb_ep_create ed mps a).endp < 8)
    (hp0 : w.endpoints 0 0 = some p0) (hep0 : w.objects p0 = some ep0)
    (hal : ∀ i d, 1 ≤ i → w.endpoints i d ≠ some p0)
    (hv0 : v ≠ 0)
    (hv : ∃ c ∈ dd.configurations, c.bConfigurationValue = v)
    (hs : w.usb_device_state = usb_device_state_address ∨
      w.usb_device_state = usb_device_state_configured) :
    ∃ cd w1 w2,
      dd.configurations.find? (fun c => decide (v = c.bConfigurationValue)) = some cd ∧
      recreate_endpoints_for_configuration env cd (world_after_hook v w) = .ok w1 ∧
      w2 = { w1 with usb_device_state := usb_device_state_configured } ∧
      hal5_usb_device_set_configuration_value env dd v w = .ok (w2, true) ∧
      w2.usb_device_state = usb_device_state_configured ∧
      Event.set_configuration_ex v ∈ w2.trace ∧
      hal5_usb_device_get_configuration_value w2 = .ok v ∧
      (∀ wa : World, wa.usb_device_state = usb_device_state_address →
        hal5_usb_device_get_configuration_value wa = .ok 0) := by
  obtain ⟨c, hc, hcv⟩ := hv
  have hsome : (dd.configurations.find?
      (fun c => decide (v = c.bConfigurationValue))).isSome := by
    rw [List.find?_isSome]
    exact ⟨c, hc, by simpa using hcv.symm⟩
  obtain ⟨cd, hfind⟩ := Option.isSome_iff_exists.mp hsome
  have hcdmem : cd ∈ dd.configurations := List.mem_of_find?_eq_some hfind
  obtain ⟨w1, hrec, hsd⟩ := recreate_endpoints_for_configuration_ok env hcreate cd
    (hdd.2 cd hcdmem) (world_after_hook v w) p0 ep0 hp0 hep0 hal
  obtain ⟨hst, hval, _, t, htr⟩ := hsd
  have hpos : v > 0 := Nat.pos_of_ne_zero hv0
  have htry : hal5_usb_device_try_changing_configuration env dd v w = .ok (w1, true) := by
    simp only [hal5_usb_device_try_changing_configuration, not_not, hpos, not_true_eq_false,
      if_false, List.range_eq_range', hdd.1]
    rw [try_changing_configuration_loop_match env dd v w cd dd.configurations.length 0
      (by omega) (by simpa using hfind), hrec]
  have hval1 : w1.usb_device_configuration_value = v := by rw [hval]; rfl
  refine ⟨cd, w1, _, hfind, hrec, rfl, ?_, rfl, ?_, ?_, ?_⟩
  · rcases hs with hs | hs
    · simp [hal5_usb_device_set_configuration_value, hs, hv0, htry]
    · have hst1 : w1.usb_device_state = usb_device_state_configured := by
        rw [hst]; exact hs
      have heta : ({ w1 with usb_device_state := usb_device_state_configured } : World) = w1 := by
        cases w1
        simp_all
      rw [heta]
      simp [hal5_usb_device_set_configuration_value, hs, hv0, htry]
  · show Event.set_configuration_ex v ∈ w1.trace
    rw [htr]
    simp [world_after_hook, World.emit]
  · simp [hal5_usb_device_get_configuration_value, hval1, hpos]
  · intro wa ha
    simp [hal5_usb_device_get_configuration_value, ha]

theorem set_configuration_match_witness :
    (device_wf hal5_usb_device_descriptor ∧
      (∀ ed mps a, (env0.hal5_usb_ep_create ed mps a).endp < 8) ∧
      world_address.endpoints 0 0 = some 0 ∧
      world_address.objects 0 =
        some (env0.hal5_usb_ep_prepare_for_out (env0.hal5_usb_ep_create none 64 64)
          ep_status_stall) ∧
      (∀ i d, 1 ≤ i → world_address.endpoints i d ≠ some 0) ∧
      1 ≠ 0 ∧
      (∃ c ∈ hal5_usb_device_descriptor.configurations, c.bConfigurationValue = 1) ∧
      (world_address.usb_device_state = usb_device_state_address ∨
        world_address.usb_device_state = usb_device_state_configured)) ∧
    ∃ cd w1 w2,
      hal5_usb_device_descriptor.configurations.find?
        (fun c => decide (1 = c.bConfigurationValue)) = some cd ∧
      recreate_endpoints_for_configuration env0 cd (world_after_hook 1 world_address) = .ok w1 ∧
      w2 = { w1 with usb_device_state := usb_device_state_configured } ∧
      hal5_usb_device_set_configuration_value env0 hal5_usb_device_descriptor 1
        world_address = .ok (w2, true) ∧
      w2.usb_device_state = usb_device_state_configured ∧
      Event.set_configuration_ex 1 ∈ w2.trace ∧
      hal5_usb_device_get_configuration_value w2 = .ok 1 ∧
      (∀ wa : World, wa.usb_device_state = usb_device_state_address →
        hal5_usb_device_get_configuration_value wa = .ok 0) :=
  have hwf : device_wf hal5_usb_device_descriptor := by
    refine ⟨rfl, ?_⟩
    intro cd hcd
    have hcd2 : cd = hal5_usb_configuration_descriptor_0 := by
      simpa [hal5_usb_device_descriptor, hal5_usb_device_descriptor_0] using hcd
    subst hcd2
    refine ⟨by decide, ?_⟩
    intro id hid
    have hid2 : id = hal5_usb_interface_descriptor_0 := by
      simpa [hal5_usb_configuration_descriptor_0] using hid
    subst hid2
    show 1 ≤ 1
    exact Nat.le_refl 1
  have hcreate : ∀ ed mps a, (env0.hal5_usb_ep_create ed mps a).endp < 8 := by
    intro ed mps a
    cases ed with
    | none => show 0 < 8; decide
    | some d =>
      show d.bEndpointAddress &&& 0x7 < 8
      exact Nat.lt_of_le_of_lt Nat.and_le_right (by decide)
  have hal : ∀ i d, 1 ≤ i → world_address.endpoints i d ≠ some 0 := by
    intro i d hi
    have hi0 : ¬ i = 0 := by omega
    simp [world_address, hal5_usb_device_set_address, world_reset, hal5_usb_device_bus_reset,
      world0, ep_create, hal5_usb_ep_free, update_object, World.emit, set_endpoint, hi0]
  ⟨⟨hwf, hcreate, rfl, rfl, hal, by decide, ⟨hal5_usb_configuration_descriptor_0, by
      simp [hal5_usb_device_descriptor, hal5_usb_device_descriptor_0], rfl⟩, Or.inl rfl⟩,
    set_configuration_match env0 hal5_usb_device_descriptor 1 world_address 0 _
      hwf hcreate rfl rfl hal (by decide)
      ⟨hal5_usb_configuration_descriptor_0, by
        simp [hal5_usb_device_descriptor, hal5_usb_device_descriptor_0], rfl⟩
      (Or.inl rfl)⟩

/-! ## Theorems: transaction completion engine -/

/-- C7: for every endpoint with `mps > 0` the action chosen by
`usb_device_in_transaction_completed` is the one of the three-way rule of the
specification; and when `tx_sent` has reached `tx_sent_limit` and either
`tx_sent` is not a multiple of `mps` or the hint is valid with
`tx_sent >= tx_expected`, the action is `done`: the function hands the endpoint
as it found it (status and `tx_zlp_sent` untouched) to the IN stage-completion
callback of its endpoint number, and that call is the only one it makes. -/
theorem in_action_matches_spec (env : Env) (ep : hal5_usb_endpoint_t) (hmps : 0 < ep.mps) :
    usb_device_in_transaction_completed_action ep = .ok (in_action_spec ep) ∧
    (ep.tx_sent_limit ≤ ep.tx_sent →
      (¬ ep.mps ∣ ep.tx_sent ∨ (ep.tx_expected_valid = true ∧ ep.tx_expected ≤ ep.tx_sent)) →
      usb_device_in_transaction_completed_action ep = .ok done ∧
      usb_device_in_transaction_completed env ep =
        .ok (if ep.endp = 0 then
            (env.hal5_usb_device_in_stage_completed_ep0 ep, [Event.in_stage_completed_ep0])
          else
            (env.hal5_usb_device_in_stage_completed_ex ep, [Event.in_stage_completed_ex]))) := by
  have hne : ep.mps ≠ 0 := Nat.pos_iff_ne_zero.mp hmps
  have hdvd : ep.tx_sent % ep.mps = 0 ↔ ep.mps ∣ ep.tx_sent :=
    Nat.dvd_iff_mod_eq_zero.symm
  have hrule : usb_device_in_transaction_completed_action ep = .ok (in_action_spec ep) := by
    unfold usb_device_in_transaction_completed_action in_action_spec
    by_cases h1 : ep.tx_sent < ep.tx_sent_limit
    · simp [h1]
    · by_cases h2 : ep.mps ∣ ep.tx_sent
      · have h2' := hdvd.mpr h2
        cases hv : ep.tx_expected_valid <;> cases hz : ep.tx_zlp_sent <;>
          by_cases h3 : ep.tx_sent < ep.tx_expected <;>
          simp [h1, hne, h2, h2', hv, hz, h3]
      · have h2' : ¬ ep.tx_sent % ep.mps = 0 := fun h => h2 (hdvd.mp h)
        simp [h1, hne, h2, h2']
  refine ⟨hrule, ?_⟩
  intro hlim hcase
  have h1 : ¬ ep.tx_sent < ep.tx_sent_limit := Nat.not_lt.mpr hlim
  have hdone : in_action_spec ep = done := by
    unfold in_action_spec
    rcases hcase with h2 | ⟨hv, h3⟩
    · simp [h1, h2]
    · have h3' : ¬ ep.tx_sent < ep.tx_expected := Nat.not_lt.mpr h3
      simp [h1, hv, h3']
  have hact : usb_device_in_transaction_completed_action ep = .ok done := by
    rw [hrule, hdone]
  refine ⟨hact, ?_⟩
  simp only [usb_device_in_transaction_completed, hact,
    usb_device_in_transaction_completed_switch, hal5_usb_device_in_stage_completed]

theorem in_action_matches_spec_witness :
    0 < ep_in_short.mps ∧
    (usb_device_in_transaction_completed_action ep_in_short = .ok (in_action_spec ep_in_short) ∧
    (ep_in_short.tx_sent_limit ≤ ep_in_short.tx_sent →
      (¬ ep_in_short.mps ∣ ep_in_short.tx_sent ∨
        (ep_in_short.tx_expected_valid = true ∧ ep_in_short.tx_expected ≤ ep_in_short.tx_sent)) →
      usb_device_in_transaction_completed_action ep_in_short = .ok done ∧
      usb_device_in_transaction_completed env0 ep_in_short =
        .ok (if ep_in_short.endp = 0 then
            (env0.hal5_usb_device_in_stage_completed_ep0 ep_in_short,
              [Event.in_stage_completed_ep0])
          else
            (env0.hal5_usb_device_in_stage_completed_ex ep_in_short,
              [Event.in_stage_completed_ex])))) :=
  ⟨by decide, in_action_matches_spec env0 ep_in_short (by decide)⟩

/-- The dispatcher bookkeeping of an IN completion leaves `mps` and the TX
descriptor alone; `tx_sent` becomes the 32-bit sum of the TX byte count and
either 0 (the previous completion was an OUT one) or the old `tx_sent`. -/
theorem irq_ctr_bookkeeping_in (env : Env) (istr : Nat) (ep : hal5_usb_endpoint_t) :
    (irq_ctr_bookkeeping env istr false ep).1.mps = ep.mps ∧
    (irq_ctr_bookkeeping env istr false ep).1.txbd = ep.txbd ∧
    (irq_ctr_bookkeeping env istr false ep).1.tx_sent =
      ((if ep.current_out then 0 else ep.tx_sent) + ep.txbd.count) % 2 ^ 32 := by
  cases h : ep.current_out <;> simp [irq_ctr_bookkeeping, h]

/-- What the choice of `send_zlp` tells about the endpoint. -/
theorem send_zlp_inv (ep : hal5_usb_endpoint_t)
    (h : usb_device_in_transaction_completed_action ep = .ok send_zlp) :
    0 < ep.mps ∧ ep.tx_sent % ep.mps = 0 ∧ ep.tx_sent_limit ≤ ep.tx_sent ∧
      ep.tx_zlp_sent = false := by
  unfold usb_device_in_transaction_completed_action at h
  by_cases h1 : ep.tx_sent < ep.tx_sent_limit
  · simp [h1] at h
  · by_cases h0 : ep.mps = 0
    · simp [h1, h0] at h
    · by_cases h2 : ep.tx_sent % ep.mps = 0
      · refine ⟨Nat.pos_of_ne_zero h0, h2, Nat.not_lt.mp h1, ?_⟩
        cases hz : ep.tx_zlp_sent
        · rfl
        · cases hv : ep.tx_expected_valid <;> by_cases h3 : ep.tx_sent < ep.tx_expected <;>
            simp [h1, h0, h2, hz, hv, h3] at h
      · simp [h1, h0, h2] at h

/-- C9 (counterexample): endpoint 0 with `mps` 64 completes a zero-length IN
packet of a transfer with `tx_sent_limit = 0`, after an OUT completion, with no
hint.  The dispatcher bookkeeping gives `tx_sent = 0`, the engine chooses
`send_zlp` and arms TX again, although the byte count of the packet just sent
is 0, not `mps`. -/
theorem send_zlp_after_empty_packet :
    ep_in_empty.txbd.count = 0 ∧ ep_in_empty.tx_sent_limit = 0 ∧ ep_in_empty.mps = 64 ∧
    usb_device_in_transaction_completed_action
      (irq_ctr_bookkeeping env0 0x8000 false ep_in_empty).1 = .ok send_zlp ∧
    (hal5_usb_device_transaction_completed env0
      (irq_ctr_bookkeeping env0 0x8000 false ep_in_empty).1).toOption.map (fun r => r.2) =
        some [Event.ep_clear_vttx, Event.ep_set_status ep_status_stall ep_status_valid] ∧
    ¬ (ep_in_empty.txbd.count = ep_in_empty.mps) := by
  refine ⟨rfl, rfl, rfl, rfl, rfl, by decide⟩

/-- C9 (amended): when the engine, run on the endpoint the dispatcher
bookkeeping of an IN completion leaves, chooses `send_zlp`, the cumulative
`tx_sent` (the TX byte count included) is a multiple of `mps`, is not below
`tx_sent_limit`, and no ZLP was sent before; and if the total before this
packet was a multiple of `mps`, the byte count is at most `mps` and the 32-bit
sum did not wrap, the byte count of the packet just sent is `mps` or 0. -/
theorem send_zlp_total_multiple_of_mps (env : Env) (istr : Nat) (ep : hal5_usb_endpoint_t)
    (h : usb_device_in_transaction_completed_action
      (irq_ctr_bookkeeping env istr false ep).1 = .ok send_zlp) :
    (irq_ctr_bookkeeping env istr false ep).1.tx_sent % ep.mps = 0 ∧
    (irq_ctr_bookkeeping env istr false ep).1.tx_sent_limit ≤
      (irq_ctr_bookkeeping env istr false ep).1.tx_sent ∧
    (irq_ctr_bookkeeping env istr false ep).1.tx_zlp_sent = false ∧
    ((if ep.current_out then 0 else ep.tx_sent) % ep.mps = 0 →
      ep.txbd.count ≤ ep.mps →
      (if ep.current_out then 0 else ep.tx_sent) + ep.txbd.count < 2 ^ 32 →
      ep.txbd.count = ep.mps ∨ ep.txbd.count = 0) := by
  obtain ⟨hmps, htx, hsent⟩ := irq_ctr_bookkeeping_in env istr ep
  obtain ⟨hpos, hmod, hlim, hz⟩ := send_zlp_inv _ h
  rw [hmps] at hmod hpos
  refine ⟨hmod, hlim, hz, ?_⟩
  intro hbase hle hnowrap
  rw [hsent, Nat.mod_eq_of_lt hnowrap] at hmod
  have hd1 : ep.mps ∣ (if ep.current_out then 0 else ep.tx_sent) :=
    Nat.dvd_of_mod_eq_zero hbase
  have hd2 : ep.mps ∣ (if ep.current_out then 0 else ep.tx_sent) + ep.txbd.count :=
    Nat.dvd_of_mod_eq_zero hmod
  have hd3 : ep.mps ∣ ep.txbd.count := (Nat.dvd_add_right hd1).mp hd2
  rcases Nat.eq_zero_or_pos ep.txbd.count with h0 | hcpos
  · exact Or.inr h0
  · exact Or.inl (Nat.le_antisymm hle (Nat.le_of_dvd hcpos hd3))

theorem send_zlp_total_multiple_of_mps_witness :
    usb_device_in_transaction_completed_action
      (irq_ctr_bookkeeping env0 0x8000 false ep_in_first).1 = .ok send_zlp ∧
    ((irq_ctr_bookkeeping env0 0x8000 false ep_in_first).1.tx_sent % ep_in_first.mps = 0 ∧
    (irq_ctr_bookkeeping env0 0x8000 false ep_in_first).1.tx_sent_limit ≤
      (irq_ctr_bookkeeping env0 0x8000 false ep_in_first).1.tx_sent ∧
    (irq_ctr_bookkeeping env0 0x8000 false ep_in_first).1.tx_zlp_sent = false ∧
    ((if ep_in_first.current_out then 0 else ep_in_first.tx_sent) % ep_in_first.mps = 0 →
      ep_in_first.txbd.count ≤ ep_in_first.mps →
      (if ep_in_first.current_out then 0 else ep_in_first.tx_sent) + ep_in_first.txbd.count
        < 2 ^ 32 →
      ep_in_first.txbd.count = ep_in_first.mps ∨ ep_in_first.txbd.count = 0)) :=
  ⟨rfl, send_zlp_total_multiple_of_mps env0 0x8000 ep_in_first rfl⟩

/-- C10: for every endpoint, when the received chunk is shorter than `mps`,
`usb_device_out_transaction_completed` hands the endpoint as it found it to
the OUT stage-completion callback of its endpoint number and makes no other
call (no status is set); when the chunk size equals `mps`, its only call is
`hal5_usb_ep_set_status` with RX valid and TX stall, and no stage-completion
callback is called. -/
theorem out_transfer_law (env : Env) (ep : hal5_usb_endpoint_t) :
    (ep.rxbd.count < ep.mps →
      usb_device_out_transaction_completed env ep =
        (if ep.endp = 0 then
          (env.hal5_usb_device_out_stage_completed_ep0 ep, [Event.out_stage_completed_ep0])
        else
          (env.hal5_usb_device_out_stage_completed_ex ep, [Event.out_stage_completed_ex]))) ∧
    (ep.rxbd.count = ep.mps →
      usb_device_out_transaction_completed env ep =
        (hal5_usb_ep_set_status ep ep_status_valid ep_status_stall,
          [Event.ep_set_status ep_status_valid ep_status_stall]) ∧
      (usb_device_out_transaction_completed env ep).1.rx_status = ep_status_valid ∧
      (usb_device_out_transaction_completed env ep).1.tx_status = ep_status_stall) := by
  constructor
  · intro hlt
    by_cases h0 : ep.endp = 0
    · by_cases hr : env.hal5_usb_device_ep0_get_standard_request = standard_request_null
      · simp [usb_device_out_transaction_completed, hal5_usb_device_out_stage_completed,
          hlt, h0, hr]
      · simp [usb_device_out_transaction_completed, hlt, h0, hr]
    · simp [usb_device_out_transaction_completed, hal5_usb_device_out_stage_completed,
        hlt, h0]
  · intro heq
    have hnlt : ¬ ep.rxbd.count < ep.mps := by omega
    simp [usb_device_out_transaction_completed, hnlt, hal5_usb_ep_set_status]

theorem out_transfer_law_witness :
    (ep_out_short.rxbd.count < ep_out_short.mps ∧
      usb_device_out_transaction_completed env0 ep_out_short =
        (env0.hal5_usb_device_out_stage_completed_ex ep_out_short,
          [Event.out_stage_completed_ex])) ∧
    (ep_out_full.rxbd.count = ep_out_full.mps ∧
      usb_device_out_transaction_completed env0 ep_out_full =
        (hal5_usb_ep_set_status ep_out_full ep_status_valid ep_status_stall,
          [Event.ep_set_status ep_status_valid ep_status_stall])) :=
  ⟨⟨by decide, (out_transfer_law env0 ep_out_short).1 (by decide)⟩,
    ⟨rfl, ((out_transfer_law env0 ep_out_full).2 rfl).1⟩⟩

/-! ## Theorems: interrupt dispatcher -/

/-- C11: for every status value read on entry, `USB_DRD_FS_IRQHandler` runs
the branch of exactly one category, the first in the order bus reset,
transaction complete, packet-memory overrun, bus error, wake-up, suspend whose
bit is set; with the reset and the transaction-complete bit both set it runs
bus-reset handling only; with none of the six bits set it stops in the
assertion of line 744, the world untouched. -/
theorem irq_handler_priority (env : Env) (dd : hal5_usb_device_descriptor_t) (w : World) :
    USB_DRD_FS_IRQHandler env dd w =
      (match irq_category_spec w.USB_DRD_FS.ISTR with
       | some c => irq_handle env dd w c
       | none => .error (Fault.assert_failed 744, w)) ∧
    (w.USB_DRD_FS.ISTR &&& USB_ISTR_RESET_Msk ≠ 0 → w.USB_DRD_FS.ISTR &&& USB_ISTR_CTR ≠ 0 →
      USB_DRD_FS_IRQHandler env dd w = .ok (irq_reset env dd w)) ∧
    ((∀ c, w.USB_DRD_FS.ISTR &&& irq_category_bit c = 0) →
      USB_DRD_FS_IRQHandler env dd w = .error (Fault.assert_failed 744, w)) := by
  refine ⟨?_, ?_, ?_⟩
  · unfold USB_DRD_FS_IRQHandler irq_category_spec irq_priority
    by_cases h1 : w.USB_DRD_FS.ISTR &&& USB_ISTR_RESET_Msk = 0
    · by_cases h2 : w.USB_DRD_FS.ISTR &&& USB_ISTR_CTR = 0
      · by_cases h3 : w.USB_DRD_FS.ISTR &&& USB_ISTR_PMAOVR = 0
        · by_cases h4 : w.USB_DRD_FS.ISTR &&& USB_ISTR_ERR = 0
          · by_cases h5 : w.USB_DRD_FS.ISTR &&& USB_ISTR_WKUP = 0
            · by_cases h6 : w.USB_DRD_FS.ISTR &&& USB_ISTR_SUSP = 0
              · simp [irq_category_bit, irq_handle, h1, h2, h3, h4, h5, h6]
              · simp [irq_category_bit, irq_handle, h1, h2, h3, h4, h5, h6]
            · simp [irq_category_bit, irq_handle, h1, h2, h3, h4, h5]
          · simp [irq_category_bit, irq_handle, h1, h2, h3, h4]
        · simp [irq_category_bit, irq_handle, h1, h2, h3]
      · simp [irq_category_bit, irq_handle, h1, h2]
    · simp [irq_category_bit, irq_handle, h1]
  · intro h1 _
    simp [USB_DRD_FS_IRQHandler, h1]
  · intro h
    have h1 := h .bus_reset
    have h2 := h .transaction_complete
    have h3 := h .pma_overrun
    have h4 := h .bus_error
    have h5 := h .wake_up
    have h6 := h .suspend
    simp only [irq_category_bit] at h1 h2 h3 h4 h5 h6
    simp [USB_DRD_FS_IRQHandler, h1, h2, h3, h4, h5, h6]

theorem irq_handler_priority_witness :
    (world_irq_reset.USB_DRD_FS.ISTR &&& USB_ISTR_RESET_Msk ≠ 0 ∧
      irq_category_spec world_irq_reset.USB_DRD_FS.ISTR = some .bus_reset) ∧
    USB_DRD_FS_IRQHandler env0 hal5_usb_device_descriptor world_irq_reset =
      (match irq_category_spec world_irq_reset.USB_DRD_FS.ISTR with
       | some c => irq_handle env0 hal5_usb_device_descriptor world_irq_reset c
       | none => .error (Fault.assert_failed 744, world_irq_reset)) :=
  ⟨⟨by decide, by decide⟩,
    (irq_handler_priority env0 hal5_usb_device_descriptor world_irq_reset).1⟩

/-- The acknowledgements of the branches other than bus reset store a constant:
all ones but the flag of the category. -/
theorem irq_ack_constant_writes (w : World) :
    istr_writes (irq_pmaovr w).trace = istr_writes w.trace ++ [0xFFFFBFFF] ∧
    istr_writes (irq_err w).trace = istr_writes w.trace ++ [0xFFFFDFFF] ∧
    istr_writes (irq_wkup w).trace = istr_writes w.trace ++ [0xFFFFEFFF] ∧
    istr_writes (irq_susp w).trace = istr_writes w.trace ++ [0xFFFFF7FF] := by
  have happ : ∀ (t : List Event) (v : Nat),
      istr_writes (t ++ [Event.istr_write v]) = istr_writes t ++ [v] := by
    intro t v
    induction t with
    | nil => rfl
    | cons e t ih => cases e <;> simp [istr_writes, ih]
  refine ⟨?_, ?_, ?_, ?_⟩
  · exact happ w.trace _
  · exact happ w.trace _
  · exact happ w.trace _
  · exact happ w.trace _

/-- C16 (the code at the failing input): with the reset and the suspend flag
set in `ISTR` (value 0x0C00), the bus reset branch stores 0x0800 and then 0 to
`ISTR`: the register content with the flag masked out, not the constants
0xFFFFFBFF and 0xFFFFF7FF that have 1 in every bit but the acknowledged one. -/
theorem irq_reset_ack_reads_register :
    world_irq_reset.USB_DRD_FS.ISTR = 0x0C00 ∧
    (USB_DRD_FS_IRQHandler env0 hal5_usb_device_descriptor world_irq_reset).toOption.map
      (fun w => istr_writes (w.trace.drop world_irq_reset.trace.length)) =
        some [0x0800, 0x0] ∧
    not32 USB_ISTR_RESET_Msk = 0xFFFFFBFF ∧ not32 USB_ISTR_SUSP_Msk = 0xFFFFF7FF := by
  refine ⟨rfl, ?_, by decide, by decide⟩
  decide

/-- C15 (the code at the failing input): after `hal5_usb_device_connect` the
sample world has `BCDR` 0x8000 and `CNTR` 0xFC00; `hal5_usb_device_disconnect`
leaves `BCDR` 0 and `CNTR` 0xFC00, the bit `USBRST` being 0, not 1.  And for
every world the bit `USBRST` of `CNTR` is 0 after disconnect. -/
theorem disconnect_releases_usbrst :
    world_connected.USB_DRD_FS.BCDR = 0x8000 ∧
    world_connected.USB_DRD_FS.CNTR = 0xFC00 ∧
    (hal5_usb_device_disconnect world_connected).USB_DRD_FS.BCDR = 0 ∧
    (hal5_usb_device_disconnect world_connected).USB_DRD_FS.CNTR = 0xFC00 ∧
    (hal5_usb_device_disconnect world_connected).USB_DRD_FS.CNTR &&& USB_CNTR_USBRST = 0 ∧
    (∀ w : World,
      (hal5_usb_device_disconnect w).USB_DRD_FS.CNTR &&& USB_CNTR_USBRST = 0) := by
  refine ⟨by decide, by decide, by decide, by decide, by decide, ?_⟩
  intro w
  show (w.USB_DRD_FS.CNTR &&& not32 USB_CNTR_USBRST) &&& USB_CNTR_USBRST = 0
  rw [Nat.land_assoc]
  have h : not32 USB_CNTR_USBRST &&& USB_CNTR_USBRST = 0 := by decide
  rw [h]
  exact Nat.and_zero _

/-! ## Theorems: the contract errors of the state machine -/

theorem recreate_endpoint_step_fault (env : Env) (ed : hal5_usb_endpoint_descriptor_t)
    (s : World × Nat) (e : Stopped) (h : recreate_endpoint_step env ed s = .error e) :
    memory_fault e.1 := by
  simp only [recreate_endpoint_step, ep_create, if_pos] at h
  split at h
  · cases h
  · cases h
    exact Or.inr rfl

theorem recreate_endpoints_loop_fault (env : Env) (id : hal5_usb_interface_descriptor_t) :
    ∀ (eis : List Nat) (s : World × Nat) (e : Stopped),
      recreate_endpoints_loop env id eis s = .error e → memory_fault e.1 := by
  intro eis
  induction eis with
  | nil => intro s e h; cases h
  | cons ei eis ih =>
    intro s e h
    simp only [recreate_endpoints_loop] at h
    split at h
    · cases h
      exact Or.inr rfl
    · split at h
      · cases h
        exact recreate_endpoint_step_fault env _ _ _ (by assumption)
      · exact ih _ _ h

theorem recreate_interfaces_loop_fault (env : Env) (cd : hal5_usb_configuration_descriptor_t) :
    ∀ (iis : List Nat) (s : World × Nat) (e : Stopped),
      recreate_interfaces_loop env cd iis s = .error e → memory_fault e.1 := by
  intro iis
  induction iis with
  | nil => intro s e h; cases h
  | cons ii iis ih =>
    intro s e h
    simp only [recreate_interfaces_loop] at h
    split at h
    · cases h
      exact Or.inr rfl
    · split at h
      · cases h
        exact recreate_endpoints_loop_fault env _ _ _ _ (by assumption)
      · exact ih _ _ h

theorem recreate_endpoints_for_configuration_fault (env : Env)
    (cd : hal5_usb_configuration_descriptor_t) (w : World) (e : Stopped)
    (h : recreate_endpoints_for_configuration env cd w = .error e) : memory_fault e.1 := by
  simp only [recreate_endpoints_for_configuration] at h
  split at h
  · cases h
    exact Or.inl rfl
  · split at h
    · cases h
      exact Or.inl rfl
    · split at h
      · cases h
        exact recreate_interfaces_loop_fault env cd _ _ _ (by assumption)
      · cases h

theorem try_changing_configuration_loop_fault (env : Env)
    (dd : hal5_usb_device_descriptor_t) (v : Nat) :
    ∀ (is : List Nat) (w : World) (e : Stopped),
      try_changing_configuration_loop env dd v is w = .error e → memory_fault e.1 := by
  intro is
  induction is with
  | nil => intro w e h; cases h
  | cons i is ih =>
    intro w e h
    simp only [try_changing_configuration_loop] at h
    split at h
    · cases h
      exact Or.inr rfl
    · split at h
      · split at h
        · cases h
          exact recreate_endpoints_for_configuration_fault env _ _ _ (by assumption)
        · cases h
      · exact ih _ _ h

/-- A stopped `hal5_usb_device_set_configuration_value` stopped in the state
assertion of line 177, on the world it was given, or in a memory fault. -/
theorem set_configuration_value_fault (env : Env) (dd : hal5_usb_device_descriptor_t)
    (v : Nat) (w : World) (e : Stopped)
    (h : hal5_usb_device_set_configuration_value env dd v w = .error e) :
    (e = (Fault.assert_failed 177, w) ∧ w.usb_device_state = usb_device_state_default) ∨
    (memory_fault e.1 ∧ w.usb_device_state ≠ usb_device_state_default) := by
  have htry : ∀ e2, v ≠ 0 →
      hal5_usb_device_try_changing_configuration env dd v w = .error e2 →
      memory_fault e2.1 := by
    intro e2 hv h2
    have hpos : v > 0 := Nat.pos_of_ne_zero hv
    simp only [hal5_usb_device_try_changing_configuration, not_not, hpos, not_true_eq_false,
      if_false] at h2
    exact try_changing_configuration_loop_fault env dd v _ _ _ h2
  cases hs : w.usb_device_state with
  | usb_device_state_default =>
    simp [hal5_usb_device_set_configuration_value, hs] at h
    exact Or.inl ⟨h.symm, rfl⟩
  | usb_device_state_address =>
    refine Or.inr ⟨?_, by simp⟩
    by_cases hv : v = 0
    · simp [hal5_usb_device_set_configuration_value, hs, hv] at h
    · simp only [hal5_usb_device_set_configuration_value, hs] at h
      simp [hv] at h
      split at h
      · cases h
        exact htry _ hv (by assumption)
      · cases h
      · cases h
  | usb_device_state_configured =>
    refine Or.inr ⟨?_, by simp⟩
    by_cases hv : v = 0
    · simp [hal5_usb_device_set_configuration_value, hs, hv] at h
    · simp only [hal5_usb_device_set_configuration_value, hs] at h
      simp [hv] at h
      exact htry _ hv h

/-- C17: `hal5_usb_device_set_address` stops iff the address exceeds 127 or
the state is Configured, and then in one of its two assertions;
`hal5_usb_device_get_configuration_value` and
`hal5_usb_device_set_configuration_value` stop in their state assertion (lines
137 and 177) iff the state is Default; and wherever one of these assertions
stops the run, the world is the one the function was given: no register,
state variable, table entry or object has been modified, no call made. -/
theorem state_preconditions (env : Env) (dd : hal5_usb_device_descriptor_t)
    (a v : Nat) (w : World) :
    ((∃ e, hal5_usb_device_set_address a w = .error e) ↔
      (127 < a ∨ w.usb_device_state = usb_device_state_configured)) ∧
    (∀ e, hal5_usb_device_set_address a w = .error e →
      (e.1 = Fault.assert_failed 110 ∨ e.1 = Fault.assert_failed 120) ∧ e.2 = w) ∧
    ((∃ w2, hal5_usb_device_get_configuration_value w = .error (Fault.assert_failed 137, w2)) ↔
      w.usb_device_state = usb_device_state_default) ∧
    (∀ e, hal5_usb_device_get_configuration_value w = .error e → e.2 = w) ∧
    ((∃ w2, hal5_usb_device_set_configuration_value env dd v w =
        .error (Fault.assert_failed 177, w2)) ↔
      w.usb_device_state = usb_device_state_default) ∧
    (∀ f w2, hal5_usb_device_set_configuration_value env dd v w =
        .error (Fault.assert_failed f, w2) → f = 177 ∧ w2 = w) := by
  refine ⟨?_, ?_, ?_, ?_, ?_, ?_⟩
  · by_cases ha : a ≤ 127
    · cases hs : w.usb_device_state <;> by_cases h0 : a = 0 <;>
        simp [hal5_usb_device_set_address, ha, hs, h0, Nat.not_lt.mpr ha]
    · simp [hal5_usb_device_set_address, ha, Nat.lt_of_not_le ha]
  · intro e h
    by_cases ha : a ≤ 127
    · cases hs : w.usb_device_state <;> by_cases h0 : a = 0 <;>
        simp [hal5_usb_device_set_address, ha, hs, h0] at h
      all_goals (subst h; simp)
    · simp [hal5_usb_device_set_address, ha] at h
      subst h
      simp
  · cases hs : w.usb_device_state <;>
      simp [hal5_usb_device_get_configuration_value, hs]
    split <;> simp
  · intro e h
    cases hs : w.usb_device_state <;>
      simp [hal5_usb_device_get_configuration_value, hs] at h
    · subst h; rfl
    · split at h
      · cases h; rfl
      · cases h
  · constructor
    · rintro ⟨w2, h⟩
      rcases set_configuration_value_fault env dd v w _ h with ⟨_, hd⟩ | ⟨hm, _⟩
      · exact hd
      · rcases hm with hm | hm <;> cases hm
    · intro hd
      exact ⟨w, by simp [hal5_usb_device_set_configuration_value, hd]⟩
  · intro f w2 h
    rcases set_configuration_value_fault env dd v w _ h with ⟨he, _⟩ | ⟨hm, _⟩
    · cases he
      exact ⟨rfl, rfl⟩
    · rcases hm with hm | hm <;> cases hm

/-! ## Theorems: direction-edge bookkeeping -/

/-- The bookkeeping is the edge handling followed by the accumulation. -/
theorem irq_ctr_bookkeeping_eq (env : Env) (istr : Nat) (dir_out : Bool)
    (ep : hal5_usb_endpoint_t) :
    irq_ctr_bookkeeping env istr dir_out ep =
      if dir_out then
        ({ (env.hal5_usb_device_copy_from_endpoint (irq_ctr_edge istr dir_out ep)).1 with
            rx_received :=
              ((env.hal5_usb_device_copy_from_endpoint
                  (irq_ctr_edge istr dir_out ep)).1.rx_received +
                (env.hal5_usb_device_copy_from_endpoint
                  (irq_ctr_edge istr dir_out ep)).2) % 2 ^ 32 },
          [Event.copy_from_endpoint])
      else
        ({ irq_ctr_edge istr dir_out ep with
            tx_sent := ((irq_ctr_edge istr dir_out ep).tx_sent +
              (irq_ctr_edge istr dir_out ep).txbd.count) % 2 ^ 32 }, []) := by
  cases dir_out <;> cases h : ep.current_out <;> simp [irq_ctr_bookkeeping, irq_ctr_edge, h]

/-- C20: the bookkeeping of the transaction-complete branch, on the endpoint
object found in the table.  `last_out` receives the previous `current_out` and
`current_out` the decoded direction.  When the direction changes, an OUT
completion starts from `rx_received = 0` and an IN completion from
`tx_sent = 0` with `tx_zlp_sent` false; otherwise they start from the old
values.  Before the engine runs, an OUT completion has `rx_received` equal to
that start plus the bytes copied, `tx_sent` and `tx_zlp_sent` as before; an IN
completion has `tx_sent` equal to that start plus the TX byte count,
`rx_received` as before.  Sums are 32-bit; the copy routine is one that leaves
the counters and flags alone. -/
theorem ctr_bookkeeping_counters (env : Env) (hcopy : copy_keeps_counters env)
    (istr : Nat) (dir_out : Bool) (ep : hal5_usb_endpoint_t) :
    (irq_ctr_bookkeeping env istr dir_out ep).1.last_out = ep.current_out ∧
    (irq_ctr_bookkeeping env istr dir_out ep).1.current_out = dir_out ∧
    (irq_ctr_edge istr dir_out ep).rx_received =
      (if dir_out = true ∧ ep.current_out = false then 0 else ep.rx_received) ∧
    (irq_ctr_edge istr dir_out ep).tx_sent =
      (if dir_out = false ∧ ep.current_out = true then 0 else ep.tx_sent) ∧
    (irq_ctr_edge istr dir_out ep).tx_zlp_sent =
      (if dir_out = false ∧ ep.current_out = true then false else ep.tx_zlp_sent) ∧
    (dir_out = true →
      (irq_ctr_bookkeeping env istr dir_out ep).1.rx_received =
        ((if ep.current_out = false then 0 else ep.rx_received) +
          (env.hal5_usb_device_copy_from_endpoint (irq_ctr_edge istr dir_out ep)).2) % 2 ^ 32 ∧
      (irq_ctr_bookkeeping env istr dir_out ep).1.tx_sent = ep.tx_sent ∧
      (irq_ctr_bookkeeping env istr dir_out ep).1.tx_zlp_sent = ep.tx_zlp_sent) ∧
    (dir_out = false →
      (irq_ctr_bookkeeping env istr dir_out ep).1.tx_sent =
        ((if ep.current_out = true then 0 else ep.tx_sent) + ep.txbd.count) % 2 ^ 32 ∧
      (irq_ctr_bookkeeping env istr dir_out ep).1.tx_zlp_sent =
        (if ep.current_out = true then false else ep.tx_zlp_sent) ∧
      (irq_ctr_bookkeeping env istr dir_out ep).1.rx_received = ep.rx_received) := by
  obtain ⟨c1, c2, c3, c4, c5⟩ := hcopy (irq_ctr_edge istr dir_out ep)
  rw [irq_ctr_bookkeeping_eq]
  cases dir_out <;> cases h : ep.current_out <;>
    simp [irq_ctr_edge, h] <;> simp_all [irq_ctr_edge]

theorem ctr_bookkeeping_counters_witness :
    copy_keeps_counters env0 ∧
    (irq_ctr_bookkeeping env0 0x8011 true ep_out_edge).1.last_out = false ∧
    (irq_ctr_bookkeeping env0 0x8011 true ep_out_edge).1.current_out = true ∧
    (irq_ctr_bookkeeping env0 0x8011 true ep_out_edge).1.rx_received = 10 ∧
    (irq_ctr_bookkeeping env0 0x8011 true ep_out_edge).1.tx_sent = 7 :=
  have hcopy : copy_keeps_counters env0 := fun _ => ⟨rfl, rfl, rfl, rfl, rfl⟩
  have h := ctr_bookkeeping_counters env0 hcopy 0x8011 true ep_out_edge
  ⟨hcopy, h.1, h.2.1, (h.2.2.2.2.2.1 rfl).1, (h.2.2.2.2.2.1 rfl).2.1⟩

/-! ## Theorems: invariants of the reachable worlds -/

theorem free_endpoints_loop_same_device :
    ∀ (is : List Nat) (w : World), same_device w (free_endpoints_loop is w) := by
  intro is
  induction is with
  | nil => intro w; exact same_device_refl w
  | cons i is ih =>
    intro w
    simp only [free_endpoints_loop]
    refine same_device_trans ?_ (ih _)
    exact ⟨rfl, rfl, rfl, [Event.ep_free (w.endpoints i 0), Event.ep_free (w.endpoints i 1)],
      by simp [free_endpoints_body, hal5_usb_ep_free]⟩

theorem recreate_endpoint_step_frame (env : Env) (ed : hal5_usb_endpoint_descriptor_t)
    (s s2 : World × Nat) (h : recreate_endpoint_step env ed s = .ok s2) :
    same_device s.1 s2.1 := by
  simp only [recreate_endpoint_step, ep_create, if_pos] at h
  split at h
  · cases h
    exact ⟨rfl, rfl, rfl, _, rfl⟩
  · cases h

theorem recreate_endpoints_loop_frame (env : Env) (id : hal5_usb_interface_descriptor_t) :
    ∀ (eis : List Nat) (s s2 : World × Nat),
      recreate_endpoints_loop env id eis s = .ok s2 → same_device s.1 s2.1 := by
  intro eis
  induction eis with
  | nil => intro s s2 h; cases h; exact same_device_refl _
  | cons ei eis ih =>
    intro s s2 h
    simp only [recreate_endpoints_loop] at h
    split at h
    · cases h
    · split at h
      · cases h
      · exact same_device_trans (recreate_endpoint_step_frame env _ _ _ (by assumption))
          (ih _ _ h)

theorem recreate_interfaces_loop_frame (env : Env) (cd : hal5_usb_configuration_descriptor_t) :
    ∀ (iis : List Nat) (s s2 : World × Nat),
      recreate_interfaces_loop env cd iis s = .ok s2 → same_device s.1 s2.1 := by
  intro iis
  induction iis with
  | nil => intro s s2 h; cases h; exact same_device_refl _
  | cons ii iis ih =>
    intro s s2 h
    simp only [recreate_interfaces_loop] at h
    split at h
    · cases h
    · split at h
      · cases h
      · exact same_device_trans (recreate_endpoints_loop_frame env _ _ _ _ (by assumption))
          (ih _ _ h)

/-- Endpoint recreation, when it returns, has kept the device variables. -/
theorem recreate_endpoints_for_configuration_frame (env : Env)
    (cd : hal5_usb_configuration_descriptor_t) (w w2 : World)
    (h : recreate_endpoints_for_configuration env cd w = .ok w2) : same_device w w2 := by
  simp only [recreate_endpoints_for_configuration] at h
  split at h
  · cases h
  · split at h
    · cases h
    · split at h
      · cases h
      · cases h
        have h0 : same_device w (w.emit (Event.sram_memset 8 0 (7 * 8))) :=
          ⟨rfl, rfl, rfl, _, rfl⟩
        have h1 := free_endpoints_loop_same_device [1, 2, 3, 4, 5, 6, 7]
          (w.emit (Event.sram_memset 8 0 (7 * 8)))
        have h2 := recreate_interfaces_loop_frame env cd _ _ _ (by assumption)
        exact same_device_trans h0 (same_device_trans h1 h2)

/-- The scan of the configuration list, when it returns: on failure the world
is untouched; on success the state and the registers are kept and the recorded
value is the requested one, carried by a descriptor of the list. -/
theorem try_changing_configuration_loop_ok (env : Env)
    (dd : hal5_usb_device_descriptor_t) (v : Nat) :
    ∀ (is : List Nat) (w w2 : World) (r : Bool),
      try_changing_configuration_loop env dd v is w = .ok (w2, r) →
      (r = false ∧ w2 = w) ∨
      (r = true ∧ w2.usb_device_state = w.usb_device_state ∧
        w2.USB_DRD_FS = w.USB_DRD_FS ∧ w2.usb_device_configuration_value = v ∧
        ∃ cd ∈ dd.configurations, cd.bConfigurationValue = v) := by
  intro is
  induction is with
  | nil =>
    intro w w2 r h
    cases h
    exact Or.inl ⟨rfl, rfl⟩
  | cons i is ih =>
    intro w w2 r h
    simp only [try_changing_configuration_loop] at h
    split at h
    · cases h
    · rename_i cd hcd
      split at h
      · rename_i hv
        split at h
        · cases h
        · rename_i w3 hrec
          cases h
          obtain ⟨h1, h2, h3, _⟩ := recreate_endpoints_for_configuration_frame env _ _ _ hrec
          refine Or.inr ⟨rfl, h1, h3, h2, cd, ?_, hv.symm⟩
          exact List.getElem?_mem hcd
      · exact ih _ _ _ h

/-- What a returning `hal5_usb_device_set_configuration_value` has done to the
state variables: the state was Address or Configured and still is, the
registers are kept, and in Configured state the recorded value is non-zero and
carried by a descriptor when it was so before. -/
theorem set_configuration_value_ok (env : Env) (dd : hal5_usb_device_descriptor_t)
    (v : Nat) (w w2 : World) (r : Bool)
    (h : hal5_usb_device_set_configuration_value env dd v w = .ok (w2, r)) :
    w.usb_device_state ≠ usb_device_state_default ∧
    w2.usb_device_state ≠ usb_device_state_default ∧
    w2.USB_DRD_FS = w.USB_DRD_FS ∧
    (w2.usb_device_state = usb_device_state_configured →
      (w2.usb_device_configuration_value ≠ 0 ∧
        ∃ cd ∈ dd.configurations, cd.bConfigurationValue = w2.usb_device_configuration_value) ∨
      (w2 = w ∧ w.usb_device_state = usb_device_state_configured)) := by
  have htry : ∀ w3 r3, v ≠ 0 →
      hal5_usb_device_try_changing_configuration env dd v w = .ok (w3, r3) →
      (r3 = false ∧ w3 = w) ∨
      (r3 = true ∧ w3.usb_device_state = w.usb_device_state ∧
        w3.USB_DRD_FS = w.USB_DRD_FS ∧ w3.usb_device_configuration_value = v ∧
        ∃ cd ∈ dd.configurations, cd.bConfigurationValue = v) := by
    intro w3 r3 hv h3
    have hpos : v > 0 := Nat.pos_of_ne_zero hv
    simp only [hal5_usb_device_try_changing_configuration, not_not, hpos, not_true_eq_false,
      if_false] at h3
    exact try_changing_configuration_loop_ok env dd v _ _ _ _ h3
  cases hs : w.usb_device_state with
  | usb_device_state_default =>
    simp [hal5_usb_device_set_configuration_value, hs] at h
  | usb_device_state_address =>
    by_cases hv : v = 0
    · simp [hal5_usb_device_set_configuration_value, hs, hv] at h
      obtain ⟨h1, _⟩ := h
      subst h1
      simp [hs]
    · simp only [hal5_usb_device_set_configuration_value, hs] at h
      simp [hv] at h
      split at h
      · cases h
      · rename_i w3 htr
        cases h
        rcases htry _ _ hv htr with ⟨hr, _⟩ | ⟨_, h1, h2, h3, h4⟩
        · cases hr
        · refine ⟨by simp, by simp, h2, ?_⟩
          intro _
          refine Or.inl ⟨?_, ?_⟩
          · show w3.usb_device_configuration_value ≠ 0
            rw [h3]; exact hv
          · show ∃ cd ∈ dd.configurations,
              cd.bConfigurationValue = w3.usb_device_configuration_value
            rw [h3]; exact h4
      · rename_i w3 htr
        cases h
        rcases htry _ _ hv htr with ⟨_, h1⟩ | ⟨hr, _⟩
        · subst h1
          simp [hs]
        · cases hr
  | usb_device_state_configured =>
    by_cases hv : v = 0
    · simp [hal5_usb_device_set_configuration_value, hs, hv] at h
      obtain ⟨h1, _⟩ := h
      subst h1
      simp [World.emit]
    · simp only [hal5_usb_device_set_configuration_value, hs] at h
      simp [hv] at h
      rcases htry _ _ hv h with ⟨_, h1⟩ | ⟨_, h1, h2, h3, h4⟩
      · subst h1
        simp [hs]
      · refine ⟨by simp, by rw [h1, hs]; simp, h2, ?_⟩
        intro _
        refine Or.inl ⟨by rw [h3]; exact hv, by rw [h3]; exact h4⟩

/-- What a returning `hal5_usb_device_set_address` has done. -/
theorem set_address_ok (a : Nat) (w w2 : World)
    (h : hal5_usb_device_set_address a w = .ok w2) :
    a ≤ 127 ∧ w2.USB_DRD_FS.DADDR = 0x80 ||| a ∧
    w2.usb_device_configuration_value = w.usb_device_configuration_value ∧
    (a = 0 → w2.usb_device_state = usb_device_state_default) ∧
    (a ≠ 0 → w2.usb_device_state = usb_device_state_address) := by
  by_cases ha : a ≤ 127
  · cases hs : w.usb_device_state <;> by_cases h0 : a = 0 <;>
      simp [hal5_usb_device_set_address, ha, hs, h0] at h <;> subst h <;> simp [ha, h0]
  · simp [hal5_usb_device_set_address, ha] at h

theorem connect_state_and_daddr (w : World) :
    (hal5_usb_device_connect w).usb_device_state = usb_device_state_default ∧
    (hal5_usb_device_connect w).USB_DRD_FS.DADDR = 0x80 :=
  ⟨rfl, rfl⟩

/-- A non-zero address of 7 bits changes the value `0x80 | a`. -/
theorem daddr_ne_ef : ∀ a : Nat, a < 128 → a ≠ 0 → 0x80 ||| a ≠ 0x80 := by
  decide

/-- C18: in every world reachable from `hal5_usb_device_connect` by bus
resets and returning calls of `hal5_usb_device_set_address` and
`hal5_usb_device_set_configuration_value`, if the state is Configured the
active configuration value is non-zero and is the `bConfigurationValue` of a
configuration descriptor of the device descriptor, and
`hal5_usb_device_get_configuration_value` returns it: the assertion of line
143 does not fail. -/
theorem configured_value_invariant (env : Env) (dd : hal5_usb_device_descriptor_t)
    (w : World) (last : Option Nat) (hr : Reachable env dd w last)
    (hs : w.usb_device_state = usb_device_state_configured) :
    w.usb_device_configuration_value ≠ 0 ∧
    (∃ cd ∈ dd.configurations, cd.bConfigurationValue = w.usb_device_configuration_value) ∧
    hal5_usb_device_get_configuration_value w = .ok w.usb_device_configuration_value := by
  have hinv : w.usb_device_configuration_value ≠ 0 ∧
      ∃ cd ∈ dd.configurations,
        cd.bConfigurationValue = w.usb_device_configuration_value := by
    induction hr with
    | connect w0 =>
      rw [(connect_state_and_daddr w0).1] at hs
      cases hs
    | bus_reset _ _ =>
      rw [(bus_reset_frame env dd _).1] at hs
      cases hs
    | set_address a _ hstep _ =>
      obtain ⟨_, _, _, h0, h1⟩ := set_address_ok _ _ _ hstep
      by_cases ha : a = 0
      · rw [h0 ha] at hs; cases hs
      · rw [h1 ha] at hs; cases hs
    | set_configuration_value v r _ hstep ih =>
      obtain ⟨_, _, _, h4⟩ := set_configuration_value_ok env dd _ _ _ _ hstep
      rcases h4 hs with hgood | ⟨heq, hprev⟩
      · exact hgood
      · subst heq
        exact ih hprev
  refine ⟨hinv.1, hinv.2, ?_⟩
  have hpos : w.usb_device_configuration_value > 0 := Nat.pos_of_ne_zero hinv.1
  simp [hal5_usb_device_get_configuration_value, hs, hpos]

theorem configured_value_invariant_witness :
    (Reachable env0 hal5_usb_device_descriptor world_c3 (some 5) ∧
      world_c3.usb_device_state = usb_device_state_configured) ∧
    (world_c3.usb_device_configuration_value ≠ 0 ∧
    (∃ cd ∈ hal5_usb_device_descriptor.configurations,
      cd.bConfigurationValue = world_c3.usb_device_configuration_value) ∧
    hal5_usb_device_get_configuration_value world_c3 =
      .ok world_c3.usb_device_configuration_value) :=
  have hreach : Reachable env0 hal5_usb_device_descriptor world_c3 (some 5) :=
    Reachable.set_configuration_value 1 true
      (Reachable.set_address 5
        (Reachable.bus_reset (Reachable.connect world0))
        (rfl : hal5_usb_device_set_address 5 world_c1 = .ok world_c2))
      (rfl : hal5_usb_device_set_configuration_value env0 hal5_usb_device_descriptor 1
        world_c2 = .ok (world_c3, true))
  ⟨⟨hreach, rfl⟩,
    configured_value_invariant env0 hal5_usb_device_descriptor world_c3 (some 5) hreach rfl⟩

/-- C19: in every world reachable from `hal5_usb_device_connect` by bus
resets and returning calls of `hal5_usb_device_set_address` and
`hal5_usb_device_set_configuration_value`, `DADDR` is 0x80 iff the state is
Default; in Address and Configured state `DADDR` is `0x80 | a` for the argument
`a` of the last `hal5_usb_device_set_address` call, which is in 1..127; and
after a bus reset from such a world the state is Default and `DADDR` is 0x80,
the bus reset storing to `DADDR` only when the state was not Default. -/
theorem daddr_state_invariant (env : Env) (dd : hal5_usb_device_descriptor_t)
    (w : World) (last : Option Nat) (hr : Reachable env dd w last) :
    (w.usb_device_state = usb_device_state_default ↔ w.USB_DRD_FS.DADDR = 0x80) ∧
    (w.usb_device_state ≠ usb_device_state_default →
      ∃ a, last = some a ∧ 1 ≤ a ∧ a ≤ 127 ∧ w.USB_DRD_FS.DADDR = 0x80 ||| a) ∧
    (hal5_usb_device_bus_reset env dd w).usb_device_state = usb_device_state_default ∧
    (hal5_usb_device_bus_reset env dd w).USB_DRD_FS.DADDR = 0x80 ∧
    (w.usb_device_state = usb_device_state_default →
      (hal5_usb_device_bus_reset env dd w).USB_DRD_FS = w.USB_DRD_FS) := by
  have hinv : (w.usb_device_state = usb_device_state_default ∧ w.USB_DRD_FS.DADDR = 0x80) ∨
      (w.usb_device_state ≠ usb_device_state_default ∧
        ∃ a, last = some a ∧ 1 ≤ a ∧ a ≤ 127 ∧ w.USB_DRD_FS.DADDR = 0x80 ||| a) := by
    induction hr with
    | connect w0 => exact Or.inl (connect_state_and_daddr w0)
    | @bus_reset w1 _ _ ih =>
      obtain ⟨h1, _, h3⟩ := bus_reset_frame env dd w1
      refine Or.inl ⟨h1, ?_⟩
      rw [h3]
      rcases ih with ⟨hd, hv⟩ | ⟨hnd, _⟩
      · rw [if_pos hd, hv]
      · rw [if_neg hnd]; rfl
    | set_address a _ hstep _ =>
      obtain ⟨ha, hd, _, h0, h1⟩ := set_address_ok _ _ _ hstep
      by_cases hz : a = 0
      · refine Or.inl ⟨h0 hz, ?_⟩
        rw [hd, hz]
        rfl
      · refine Or.inr ⟨by rw [h1 hz]; simp, a, rfl, Nat.pos_of_ne_zero hz, ha, hd⟩
    | set_configuration_value v r _ hstep ih =>
      obtain ⟨hpre, hpost, hregs, _⟩ := set_configuration_value_ok env dd _ _ _ _ hstep
      rcases ih with ⟨hd, _⟩ | ⟨_, a, h1, h2, h3, h4⟩
      · exact absurd hd hpre
      · exact Or.inr ⟨hpost, a, h1, h2, h3, by rw [hregs]; exact h4⟩
  obtain ⟨b1, _, b3⟩ := bus_reset_frame env dd w
  refine ⟨?_, ?_, b1, ?_, ?_⟩
  · rcases hinv with ⟨hd, hv⟩ | ⟨hnd, a, _, h2, h3, h4⟩
    · exact ⟨fun _ => hv, fun _ => hd⟩
    · constructor
      · intro hd; exact absurd hd hnd
      · intro hv
        rw [h4] at hv
        exact absurd hv (daddr_ne_ef a (by omega) (by omega))
  · intro hnd
    rcases hinv with ⟨hd, _⟩ | ⟨_, h⟩
    · exact absurd hd hnd
    · exact h
  · rw [b3]
    rcases hinv with ⟨hd, hv⟩ | ⟨hnd, _⟩
    · rw [if_pos hd, hv]
    · rw [if_neg hnd]; rfl
  · intro hd
    simp [hal5_usb_device_bus_reset, hd, hal5_usb_ep_free, ep_create, update_object,
      World.emit]

theorem daddr_state_invariant_witness :
    Reachable env0 hal5_usb_device_descriptor world_c2 (some 5) ∧
    ((world_c2.usb_device_state = usb_device_state_default ↔
      world_c2.USB_DRD_FS.DADDR = 0x80) ∧
    (world_c2.usb_device_state ≠ usb_device_state_default →
      ∃ a, some 5 = some a ∧ 1 ≤ a ∧ a ≤ 127 ∧ world_c2.USB_DRD_FS.DADDR = 0x80 ||| a) ∧
    (hal5_usb_device_bus_reset env0 hal5_usb_device_descriptor world_c2).usb_device_state =
      usb_device_state_default ∧
    (hal5_usb_device_bus_reset env0 hal5_usb_device_descriptor world_c2).USB_DRD_FS.DADDR =
      0x80 ∧
    (world_c2.usb_device_state = usb_device_state_default →
      (hal5_usb_device_bus_reset env0 hal5_usb_device_descriptor world_c2).USB_DRD_FS =
        world_c2.USB_DRD_FS)) :=
  have hreach : Reachable env0 hal5_usb_device_descriptor world_c2 (some 5) :=
    Reachable.set_address 5
      (Reachable.bus_reset (Reachable.connect world0))
      (rfl : hal5_usb_device_set_address 5 world_c1 = .ok world_c2)
  ⟨hreach, daddr_state_invariant env0 hal5_usb_device_descriptor world_c2 (some 5) hreach⟩

/-! ## Theorems: buffer layout of endpoint recreation -/

/-- C12 (the code at the failing input): for a configuration with an endpoint
of 9 bytes followed by one of 64 bytes, recreated in the sample world (the RX
buffer of endpoint 0 at address 64), the addresses passed to
`hal5_usb_ep_create` are 64 and 74, and 74 is not a multiple of 4: the cursor
73 is moved by `73 & 3 = 1`. -/
theorem recreate_misaligned_address :
    (recreate_endpoints_for_configuration env1 cd_9_64 world_address).toOption.map
      (fun w => created_addrs (w.trace.drop world_address.trace.length)) = some [64, 74] ∧
    align_cursor 73 = 74 ∧ 74 % 4 = 2 := by
  refine ⟨?_, by decide, by decide⟩
  decide

theorem recreate_steps_append (env : Env) :
    ∀ (xs ys : List hal5_usb_endpoint_descriptor_t) (s : World × Nat),
      recreate_steps env (xs ++ ys) s =
        match recreate_steps env xs s with
        | .error e => .error e
        | .ok s1 => recreate_steps env ys s1 := by
  intro xs
  induction xs with
  | nil => intro ys s; rfl
  | cons x xs ih =>
    intro ys s
    simp only [List.cons_append, recreate_steps]
    cases recreate_endpoint_step env x s with
    | error e => rfl
    | ok s1 => exact ih ys s1

/-- The inner loop over the indices `k, .., k + m - 1` is the loop body run
over these entries of the endpoint array. -/
theorem recreate_endpoints_loop_eq_steps (env : Env) (id : hal5_usb_interface_descriptor_t) :
    ∀ (m k : Nat) (s : World × Nat), k + m ≤ id.endpoints.length →
      recreate_endpoints_loop env id (List.range' k m) s =
        recreate_steps env ((id.endpoints.drop k).take m) s := by
  intro m
  induction m with
  | zero => intro k s _; rfl
  | succ m ih =>
    intro k s hk
    have hlt : k < id.endpoints.length := by omega
    rw [List.range'_succ, List.drop_eq_getElem_cons hlt, List.take_succ_cons]
    simp only [recreate_endpoints_loop, recreate_steps, List.getElem?_eq_getElem hlt]
    cases recreate_endpoint_step env (id.endpoints[k]) s with
    | error e => rfl
    | ok s1 => exact ih (k + 1) s1 (by omega)

/-- The outer loop over the indices `k, .., k + m - 1` is the loop body run
over the endpoint descriptors of these interfaces. -/
theorem recreate_interfaces_loop_eq_steps (env : Env)
    (cd : hal5_usb_configuration_descriptor_t)
    (hwf : ∀ id ∈ cd.interfaces, interface_wf id) :
    ∀ (m k : Nat) (s : World × Nat), k + m ≤ cd.interfaces.length →
      recreate_interfaces_loop env cd (List.range' k m) s =
        recreate_steps env (endpoints_of_interfaces ((cd.interfaces.drop k).take m)) s := by
  intro m
  induction m with
  | zero => intro k s _; rfl
  | succ m ih =>
    intro k s hk
    have hlt : k < cd.interfaces.length := by omega
    have hid : interface_wf (cd.interfaces[k]) := hwf _ (List.getElem_mem hlt)
    rw [List.range'_succ, List.drop_eq_getElem_cons hlt, List.take_succ_cons]
    simp only [recreate_interfaces_loop, endpoints_of_interfaces,
      List.getElem?_eq_getElem hlt, recreate_steps_append]
    have hinner := recreate_endpoints_loop_eq_steps env (cd.interfaces[k])
      (cd.interfaces[k]).bNumEndpoints 0 s (by simpa using hid)
    rw [List.range_eq_range', hinner, List.drop_zero]
    simp only [interface_endpoints]
    cases recreate_steps env (List.take (cd.interfaces[k]).bNumEndpoints
        (cd.interfaces[k]).endpoints) s with
    | error e => rfl
    | ok s1 => exact ih (k + 1) s1 (by omega)

/-- For a configuration whose arrays are as long as their counts say, the two
loops of lines 81-104 are the loop body run over `cd_endpoints cd`. -/
theorem recreate_interfaces_loop_cd (env : Env) (cd : hal5_usb_configuration_descriptor_t)
    (hcd : configuration_wf cd) (s : World × Nat) :
    recreate_interfaces_loop env cd (List.range cd.bNumInterfaces) s =
      recreate_steps env (cd_endpoints cd) s := by
  rw [List.range_eq_range', recreate_interfaces_loop_eq_steps env cd hcd.2 _ 0 s
    (by simpa using hcd.1), List.drop_zero]
  rfl

theorem created_addrs_append (t1 t2 : List Event) :
    created_addrs (t1 ++ t2) = created_addrs t1 ++ created_addrs t2 := by
  induction t1 with
  | nil => rfl
  | cons e t ih => cases e <;> simp [created_addrs, ih]

theorem recreate_endpoint_step_eq (env : Env) (ed : hal5_usb_endpoint_descriptor_t)
    (s : World × Nat)
    (h : (env.hal5_usb_ep_create (some ed) 0 (align_cursor s.2)).endp < 8) :
    recreate_endpoint_step env ed s = .ok (recreate_endpoint_result env ed s) := by
  simp only [recreate_endpoint_step, ep_create, if_pos, recreate_endpoint_result, align_cursor]
    at h ⊢
  rw [if_pos h]

/-- The release loop: its calls are releases only, the allocator is untouched,
both slots of every visited endpoint number are empty, the other slots are
kept, and both slots of every visited number were handed to
`hal5_usb_ep_free`. -/
theorem free_endpoints_loop_spec :
    ∀ (is : List Nat) (w : World),
      ∃ tf, (free_endpoints_loop is w).trace = w.trace ++ tf ∧
        created_addrs tf = [] ∧
        (free_endpoints_loop is w).next_object = w.next_object ∧
        (∀ n d, (free_endpoints_loop is w).endpoints n d =
          if n ∈ is ∧ (d = 0 ∨ d = 1) then none else w.endpoints n d) ∧
        (∀ n ∈ is, Event.ep_free (w.endpoints n 0) ∈ tf ∧
          Event.ep_free (w.endpoints n 1) ∈ tf) := by
  intro is
  induction is with
  | nil =>
    intro w
    exact ⟨[], by simp [free_endpoints_loop], rfl, rfl, by simp [free_endpoints_loop], by simp⟩
  | cons i is ih =>
    intro w
    obtain ⟨tf, h1, h2, h3, h4, h5⟩ := ih (free_endpoints_body i w)
    have hb_trace : (free_endpoints_body i w).trace =
        w.trace ++ [Event.ep_free (w.endpoints i 0), Event.ep_free (w.endpoints i 1)] := by
      simp [free_endpoints_body, hal5_usb_ep_free]
    have hb_ep : ∀ n d, (free_endpoints_body i w).endpoints n d =
        if n = i ∧ (d = 0 ∨ d = 1) then none else w.endpoints n d := by
      intro n d
      simp only [free_endpoints_body, set_endpoint, hal5_usb_ep_free]
      by_cases hn : n = i <;> by_cases hd0 : d = 0 <;> by_cases hd1 : d = 1 <;>
        simp [hn, hd0, hd1]
    refine ⟨[Event.ep_free (w.endpoints i 0), Event.ep_free (w.endpoints i 1)] ++ tf,
      ?_, ?_, ?_, ?_, ?_⟩
    · simp only [free_endpoints_loop]
      rw [h1, hb_trace, List.append_assoc]
    · rw [created_addrs_append, h2]
      rfl
    · simp only [free_endpoints_loop]
      rw [h3]
      rfl
    · intro n d
      simp only [free_endpoints_loop]
      rw [h4, hb_ep]
      by_cases hn : n = i <;> by_cases hm : n ∈ is <;> by_cases hd : d = 0 ∨ d = 1 <;>
        simp [hn, hm, hd]
    · intro n hn
      by_cases hni : n = i
      · subst hni
        simp
      · have hmem : n ∈ is := by
          rcases List.mem_cons.mp hn with h | h
          · exact absurd h hni
          · exact h
        obtain ⟨ha, hb⟩ := h5 n hmem
        rw [hb_ep] at ha hb
        simp only [hni, false_and, if_false] at ha hb
        exact ⟨List.mem_append_right _ ha, List.mem_append_right _ hb⟩

/-- The loop body run over a list of descriptors whose endpoint numbers are
below 8, with a collaborator that follows the descriptors: it returns; the
addresses passed to `hal5_usb_ep_create` are `bd_addrs`; objects allocated
before are kept; a slot no descriptor declares is kept; a slot some descriptor
declares holds a pointer allocated in this run, to the object created for such
a descriptor. -/
theorem recreate_steps_spec (env : Env) (hf : create_follows_descriptor env) :
    ∀ (eds : List hal5_usb_endpoint_descriptor_t) (w : World) (cur : Nat),
      (∀ ed ∈ eds, ed_endp ed < 8) →
      ∃ w2 cur2 t, recreate_steps env eds (w, cur) = .ok (w2, cur2) ∧
        w2.trace = w.trace ++ t ∧ created_addrs t = bd_addrs cur eds ∧
        w.next_object ≤ w2.next_object ∧
        (∀ q, q < w.next_object → w2.objects q = w.objects q) ∧
        (∀ n d, (∀ ed ∈ eds, ¬ (ed_endp ed = n ∧ ed_slot ed = d)) →
          w2.endpoints n d = w.endpoints n d) ∧
        (∀ n d, (∃ ed ∈ eds, ed_endp ed = n ∧ ed_slot ed = d) →
          ∃ p ed a, w.next_object ≤ p ∧ ed ∈ eds ∧ ed_endp ed = n ∧ ed_slot ed = d ∧
            w2.endpoints n d = some p ∧
            w2.objects p = some (env.hal5_usb_ep_create (some ed) 0 a) ∧
            Event.ep_create (some ed) 0 a p ∈ t) := by
  intro eds
  induction eds with
  | nil =>
    intro w cur _
    refine ⟨w, cur, [], rfl, by simp, rfl, Nat.le_refl _, fun _ _ => rfl, fun _ _ _ => rfl, ?_⟩
    rintro n d ⟨ed, hed, _⟩
    cases hed
  | cons e rest ih =>
    intro w cur hnum
    obtain ⟨hfe, hfd⟩ := hf e 0 (align_cursor cur)
    have he8 : (env.hal5_usb_ep_create (some e) 0 (align_cursor cur)).endp < 8 := by
      rw [hfe]; exact hnum e (List.mem_cons_self _ _)
    have hstep := recreate_endpoint_step_eq env e (w, cur) he8
    obtain ⟨w2, cur2, t2, hrun, htr, hadd, hnext, hobj, hkeep, hnew⟩ :=
      ih (recreate_endpoint_result env e (w, cur)).1 (recreate_endpoint_result env e (w, cur)).2
        (fun ed hed => hnum ed (List.mem_cons_of_mem _ hed))
    have hslot : (if (env.hal5_usb_ep_create (some e) 0 (align_cursor cur)).dir_in then 0
        else 1) = ed_slot e := by
      rw [hfd]; rfl
    have h1ep : ∀ n d, (recreate_endpoint_result env e (w, cur)).1.endpoints n d =
        if n = ed_endp e ∧ d = ed_slot e then some w.next_object else w.endpoints n d := by
      intro n d
      simp only [recreate_endpoint_result, set_endpoint, hfe, hslot]
    have h1obj : ∀ q, (recreate_endpoint_result env e (w, cur)).1.objects q =
        if q = w.next_object then
          some (env.hal5_usb_ep_create (some e) 0 (align_cursor cur))
        else w.objects q := fun q => rfl
    have h1next : (recreate_endpoint_result env e (w, cur)).1.next_object =
        w.next_object + 1 := rfl
    have h1tr : (recreate_endpoint_result env e (w, cur)).1.trace =
        w.trace ++ [Event.ep_create (some e) 0 (align_cursor cur) w.next_object] := rfl
    refine ⟨w2, cur2,
      [Event.ep_create (some e) 0 (align_cursor cur) w.next_object] ++ t2, ?_, ?_, ?_, ?_,
      ?_, ?_, ?_⟩
    · simp only [recreate_steps, hstep]
      exact hrun
    · rw [htr, h1tr, List.append_assoc]
    · rw [created_addrs_append, hadd]
      rfl
    · rw [h1next] at hnext
      omega
    · intro q hq
      rw [hobj q (by rw [h1next]; omega), h1obj]
      have : q ≠ w.next_object := by omega
      simp [this]
    · intro n d hno
      rw [hkeep n d (fun ed hed => hno ed (List.mem_cons_of_mem _ hed)), h1ep]
      have hne : ¬ (n = ed_endp e ∧ d = ed_slot e) := fun h =>
        hno e (List.mem_cons_self _ _) ⟨h.1.symm, h.2.symm⟩
      simp [hne]
    · intro n d hex
      by_cases hrest : ∃ ed ∈ rest, ed_endp ed = n ∧ ed_slot ed = d
      · obtain ⟨p, ed, a, hp, hed, hn, hd, hslotp, hobjp, hev⟩ := hnew n d hrest
        rw [h1next] at hp
        exact ⟨p, ed, a, by omega, List.mem_cons_of_mem _ hed, hn, hd, hslotp, hobjp,
          List.mem_append_right _ hev⟩
      · have hhead : ed_endp e = n ∧ ed_slot e = d := by
          obtain ⟨ed, hed, hm⟩ := hex
          rcases List.mem_cons.mp hed with h | h
          · rw [← h]; exact hm
          · exact absurd ⟨ed, h, hm⟩ hrest
        have hno : ∀ ed ∈ rest, ¬ (ed_endp ed = n ∧ ed_slot ed = d) :=
          fun ed hed hm => hrest ⟨ed, hed, hm⟩
        refine ⟨w.next_object, e, align_cursor cur, Nat.le_refl _, List.mem_cons_self _ _,
          hhead.1, hhead.2, ?_, ?_, ?_⟩
        · rw [hkeep n d hno, h1ep]
          simp [hhead.1.symm, hhead.2.symm]
        · rw [hobj _ (by rw [h1next]; omega), h1obj]
          simp
        · simp

theorem recreate_endpoint_step_ok_eq (env : Env) (ed : hal5_usb_endpoint_descriptor_t)
    (s s2 : World × Nat) (h : recreate_endpoint_step env ed s = .ok s2) :
    s2 = recreate_endpoint_result env ed s := by
  by_cases h8 : (env.hal5_usb_ep_create (some ed) 0 (align_cursor s.2)).endp < 8
  · rw [recreate_endpoint_step_eq env ed s h8] at h
    cases h
    rfl
  · simp only [recreate_endpoint_step, ep_create, if_pos, align_cursor] at h h8
    rw [if_neg h8] at h
    cases h

/-- The addresses passed to `hal5_usb_ep_create` by a returning run of the loop
body over a list of descriptors are `bd_addrs`. -/
theorem recreate_steps_addrs (env : Env) :
    ∀ (eds : List hal5_usb_endpoint_descriptor_t) (s s2 : World × Nat),
      recreate_steps env eds s = .ok s2 →
      ∃ t, s2.1.trace = s.1.trace ++ t ∧ created_addrs t = bd_addrs s.2 eds := by
  intro eds
  induction eds with
  | nil =>
    intro s s2 h
    cases h
    exact ⟨[], by simp, rfl⟩
  | cons e rest ih =>
    intro s s2 h
    simp only [recreate_steps] at h
    split at h
    · cases h
    · rename_i s1 hstep
      have hs1 := recreate_endpoint_step_ok_eq env e s s1 hstep
      obtain ⟨t, ht, ha⟩ := ih s1 s2 h
      refine ⟨[Event.ep_create (some e) 0 (align_cursor s.2) s.1.next_object] ++ t, ?_, ?_⟩
      · rw [ht, hs1]
        simp [recreate_endpoint_result]
      · rw [created_addrs_append, ha, hs1]
        rfl

theorem align_cursor_bounds (cur : Nat) (h : cur + 3 < 2 ^ 32) :
    cur ≤ align_cursor cur ∧ align_cursor cur ≤ cur + 3 := by
  have hand : cur &&& 0x3 ≤ 3 := Nat.and_le_right
  have hlt : cur + (cur &&& 0x3) < 2 ^ 32 := by omega
  unfold align_cursor
  rw [Nat.mod_eq_of_lt hlt]
  omega

theorem align_cursor_even (cur : Nat) (h : cur + 3 < 2 ^ 32) (he : cur % 2 = 0) :
    align_cursor cur % 4 = 0 ∧ align_cursor cur ≤ cur + 2 := by
  have hand : cur &&& 0x3 = cur % 4 := Nat.and_pow_two_sub_one_eq_mod cur 2
  have hlt : cur + (cur &&& 0x3) < 2 ^ 32 := by
    rw [hand]; omega
  unfold align_cursor
  rw [Nat.mod_eq_of_lt hlt, hand]
  omega

theorem align_cursor_aligned (cur : Nat) (h : cur < 2 ^ 32) (h4 : cur % 4 = 0) :
    align_cursor cur = cur := by
  have hand : cur &&& 0x3 = cur % 4 := Nat.and_pow_two_sub_one_eq_mod cur 2
  unfold align_cursor
  rw [hand, h4, Nat.add_zero, Nat.mod_eq_of_lt h]

/-- Without 32-bit wrap, each address is at least the previous one plus the
previous `wMaxPacketSize`. -/
theorem bd_addrs_no_overlap :
    ∀ (eds : List hal5_usb_endpoint_descriptor_t) (cur : Nat),
      cur + (eds.map (fun ed => ed.wMaxPacketSize + 3)).sum < 2 ^ 32 →
      ∀ (k a b : Nat) (ed : hal5_usb_endpoint_descriptor_t),
        (bd_addrs cur eds)[k]? = some a → (bd_addrs cur eds)[k + 1]? = some b →
        eds[k]? = some ed → a + ed.wMaxPacketSize ≤ b := by
  intro eds
  induction eds with
  | nil => intro cur _ k a b ed ha; simp [bd_addrs] at ha
  | cons e rest ih =>
    intro cur hsum k a b ed ha hb hed
    simp only [List.map_cons, List.sum_cons] at hsum
    obtain ⟨hlo, hhi⟩ := align_cursor_bounds cur (by omega)
    have hnext : (align_cursor cur + e.wMaxPacketSize) % 2 ^ 32 =
        align_cursor cur + e.wMaxPacketSize := Nat.mod_eq_of_lt (by omega)
    cases k with
    | zero =>
      simp only [bd_addrs, List.getElem?_cons_zero, Option.some.injEq] at ha hed
      simp only [bd_addrs, List.getElem?_cons_succ] at hb
      cases rest with
      | nil => simp [bd_addrs] at hb
      | cons e2 rest2 =>
        simp only [bd_addrs, List.getElem?_cons_zero, Option.some.injEq] at hb
        simp only [List.map_cons, List.sum_cons] at hsum
        rw [hnext] at hb
        obtain ⟨hlo2, _⟩ := align_cursor_bounds (align_cursor cur + e.wMaxPacketSize)
          (by omega)
        rw [← ha, ← hed, ← hb]
        exact hlo2
    | succ k =>
      simp only [bd_addrs, List.getElem?_cons_succ] at ha hb hed
      rw [hnext] at ha hb
      exact ih (align_cursor cur + e.wMaxPacketSize) (by omega) k a b ed ha hb hed

/-- For packet sizes 64 and then 32, from an even cursor and without 32-bit
wrap, the second address is the first plus 64. -/
theorem bd_addrs_64_32 (eds : List hal5_usb_endpoint_descriptor_t) (cur : Nat)
    (hm : eds.map (fun ed => ed.wMaxPacketSize) = [64, 32])
    (he : cur % 2 = 0) (hlt : cur + 66 < 2 ^ 32) :
    bd_addrs cur eds = [align_cursor cur, align_cursor cur + 64] := by
  match eds, hm with
  | [], hm => simp at hm
  | [_], hm => simp at hm
  | _ :: _ :: _ :: _, hm => simp at hm
  | [e1, e2], hm =>
    simp only [List.map_cons, List.map_nil, List.cons.injEq, and_true] at hm
    obtain ⟨h1, _⟩ := hm
    obtain ⟨ha4, hale⟩ := align_cursor_even cur (by omega) he
    have hnext : (align_cursor cur + 64) % 2 ^ 32 = align_cursor cur + 64 :=
      Nat.mod_eq_of_lt (by omega)
    have h2 : align_cursor (align_cursor cur + 64) = align_cursor cur + 64 :=
      align_cursor_aligned _ (by omega) (by omega)
    simp only [bd_addrs, h1, hnext, h2]

/-- The addresses a returning `recreate_endpoints_for_configuration` passed to
`hal5_usb_ep_create` are those lines 92-101 compute from the RX buffer address
of endpoint 0 over the endpoint descriptors taken interface by interface in
descriptor order.  Where line 92 does reach a multiple of 4 (an even cursor)
and the 32-bit cursor does not wrap, packet sizes 64 and then 32 give a second
address equal to the first plus 64; and without wrap each address is at least
the previous address plus the previous `wMaxPacketSize`. -/
theorem recreate_buffer_layout (env : Env) (cd : hal5_usb_configuration_descriptor_t)
    (w w2 : World) (p0 : Nat) (ep0 : hal5_usb_endpoint_t)
    (hcd : configuration_wf cd)
    (hp0 : w.endpoints 0 0 = some p0) (hep0 : w.objects p0 = some ep0)
    (hal : ∀ i d, 1 ≤ i → w.endpoints i d ≠ some p0)
    (hrun : recreate_endpoints_for_configuration env cd w = .ok w2) :
    ∃ t, w2.trace = w.trace ++ t ∧
      created_addrs t = bd_addrs ep0.rxbd.addr (cd_endpoints cd) ∧
      ((cd_endpoints cd).map (fun ed => ed.wMaxPacketSize) = [64, 32] →
        ep0.rxbd.addr % 2 = 0 → ep0.rxbd.addr + 66 < 2 ^ 32 →
        ∃ a1, created_addrs t = [a1, a1 + 64]) ∧
      (ep0.rxbd.addr + ((cd_endpoints cd).map (fun ed => ed.wMaxPacketSize + 3)).sum < 2 ^ 32 →
        ∀ (k a b : Nat) (ed : hal5_usb_endpoint_descriptor_t),
          (created_addrs t)[k]? = some a → (created_addrs t)[k + 1]? = some b →
          (cd_endpoints cd)[k]? = some ed → a + ed.wMaxPacketSize ≤ b) := by
  have hfree := free_endpoints_loop_frame p0 [1, 2, 3, 4, 5, 6, 7]
    (w.emit (Event.sram_memset 8 0 (7 * 8))) (by decide)
    (fun i hi => by
      have h1 : 1 ≤ i := by
        simp only [List.mem_cons, List.mem_singleton, List.not_mem_nil, or_false] at hi
        omega
      exact ⟨hal i 0 h1, hal i 1 h1⟩)
  obtain ⟨_, he, ho⟩ := hfree
  obtain ⟨tf, hft, hfa, _, _, _⟩ := free_endpoints_loop_spec [1, 2, 3, 4, 5, 6, 7]
    (w.emit (Event.sram_memset 8 0 (7 * 8)))
  have he2 : (free_endpoints_loop [1, 2, 3, 4, 5, 6, 7]
      (w.emit (Event.sram_memset 8 0 (7 * 8)))).endpoints 0 0 = some p0 := by
    rw [he]; exact hp0
  have ho2 : (free_endpoints_loop [1, 2, 3, 4, 5, 6, 7]
      (w.emit (Event.sram_memset 8 0 (7 * 8)))).objects p0 = some ep0 := by
    rw [ho]; exact hep0
  simp only [recreate_endpoints_for_configuration, he2, ho2,
    recreate_interfaces_loop_cd env cd hcd] at hrun
  split at hrun
  · cases hrun
  · rename_i s2 hsteps
    cases hrun
    obtain ⟨t, ht, ha⟩ := recreate_steps_addrs env _ _ _ hsteps
    have haddrs : created_addrs ([Event.sram_memset 8 0 (7 * 8)] ++ tf ++ t) =
        bd_addrs ep0.rxbd.addr (cd_endpoints cd) := by
      rw [created_addrs_append, created_addrs_append, hfa, ha]
      rfl
    refine ⟨[Event.sram_memset 8 0 (7 * 8)] ++ tf ++ t, ?_, haddrs, ?_, ?_⟩
    · rw [ht, hft]
      simp [World.emit]
    · intro hm hev hlt
      exact ⟨align_cursor ep0.rxbd.addr, by rw [haddrs, bd_addrs_64_32 _ _ hm hev hlt]⟩
    · intro hsum k a b ed hka hkb hked
      rw [haddrs] at hka hkb
      exact bd_addrs_no_overlap _ _ hsum k a b ed hka hkb hked

theorem world_address_no_alias :
    ∀ i d, 1 ≤ i → world_address.endpoints i d ≠ some 0 := by
  intro i d hi
  have hi0 : ¬ i = 0 := by omega
  simp [world_address, hal5_usb_device_set_address, world_reset, hal5_usb_device_bus_reset,
    world0, ep_create, hal5_usb_ep_free, update_object, World.emit, set_endpoint, hi0]

theorem cd_64_32_wf : configuration_wf cd_64_32 := by
  refine ⟨by decide, ?_⟩
  intro id hid
  simp only [cd_64_32, List.mem_singleton] at hid
  subst hid
  show 2 ≤ 2
  exact Nat.le_refl 2

theorem recreate_buffer_layout_witness :
    (configuration_wf cd_64_32 ∧ world_address.endpoints 0 0 = some 0 ∧
      world_address.objects 0 =
        some (env0.hal5_usb_ep_prepare_for_out (env0.hal5_usb_ep_create none 64 64)
          ep_status_stall) ∧
      (∀ i d, 1 ≤ i → world_address.endpoints i d ≠ some 0) ∧
      recreate_endpoints_for_configuration env1 cd_64_32 world_address = .ok world_64_32) ∧
    ∃ t, world_64_32.trace = world_address.trace ++ t ∧
      created_addrs t = [64, 128] :=
  have h := recreate_buffer_layout env1 cd_64_32 world_address world_64_32 0 _
    cd_64_32_wf rfl rfl world_address_no_alias rfl
  ⟨⟨cd_64_32_wf, rfl, rfl, world_address_no_alias, rfl⟩,
    h.elim (fun t ht => ⟨t, ht.1, ht.2.1⟩)⟩

/-! ## Theorems: the registry after endpoint recreation -/

/-- C14: for a configuration whose arrays are as long as their counts say and
whose endpoint descriptors declare numbers 1..7, with endpoint 0 registered
with a live object of its own and a collaborator that follows the descriptors,
`recreate_endpoints_for_configuration` returns and then, for every number `n`
in 1..7 and direction slot `d`: the slot is non-empty iff the configuration
declares an endpoint of that number and direction; a pointer in the slot was
allocated in this call and points to the object created in this call for such
a descriptor; the pointer the slot held before was handed to
`hal5_usb_ep_free`.  Both slots of endpoint 0 are unchanged. -/
theorem recreate_registry (env : Env) (cd : hal5_usb_configuration_descriptor_t)
    (w : World) (p0 : Nat) (ep0 : hal5_usb_endpoint_t)
    (hf : create_follows_descriptor env) (hcd : configuration_wf cd)
    (hnum : ∀ ed ∈ cd_endpoints cd, 1 ≤ ed_endp ed ∧ ed_endp ed ≤ 7)
    (hp0 : w.endpoints 0 0 = some p0) (hep0 : w.objects p0 = some ep0)
    (hal : ∀ i d, 1 ≤ i → w.endpoints i d ≠ some p0) :
    ∃ w2 t, recreate_endpoints_for_configuration env cd w = .ok w2 ∧
      w2.trace = w.trace ++ t ∧
      w2.endpoints 0 0 = w.endpoints 0 0 ∧ w2.endpoints 0 1 = w.endpoints 0 1 ∧
      ∀ n d, 1 ≤ n → n ≤ 7 → d < 2 →
        (w2.endpoints n d ≠ none ↔
          ∃ ed ∈ cd_endpoints cd, ed_endp ed = n ∧ ed_slot ed = d) ∧
        (∀ p, w2.endpoints n d = some p →
          w.next_object ≤ p ∧
          ∃ ed ∈ cd_endpoints cd, ∃ a, ed_endp ed = n ∧ ed_slot ed = d ∧
            w2.objects p = some (env.hal5_usb_ep_create (some ed) 0 a) ∧
            Event.ep_create (some ed) 0 a p ∈ t) ∧
        Event.ep_free (w.endpoints n d) ∈ t := by
  have hfree := free_endpoints_loop_frame p0 [1, 2, 3, 4, 5, 6, 7]
    (w.emit (Event.sram_memset 8 0 (7 * 8))) (by decide)
    (fun i hi => by
      have h1 : 1 ≤ i := by
        simp only [List.mem_cons, List.mem_singleton, List.not_mem_nil, or_false] at hi
        omega
      exact ⟨hal i 0 h1, hal i 1 h1⟩)
  obtain ⟨_, he, ho⟩ := hfree
  obtain ⟨tf, hft, _, hfn, hfe, hfev⟩ := free_endpoints_loop_spec [1, 2, 3, 4, 5, 6, 7]
    (w.emit (Event.sram_memset 8 0 (7 * 8)))
  have he2 : (free_endpoints_loop [1, 2, 3, 4, 5, 6, 7]
      (w.emit (Event.sram_memset 8 0 (7 * 8)))).endpoints 0 0 = some p0 := by
    rw [he]; exact hp0
  have ho2 : (free_endpoints_loop [1, 2, 3, 4, 5, 6, 7]
      (w.emit (Event.sram_memset 8 0 (7 * 8)))).objects p0 = some ep0 := by
    rw [ho]; exact hep0
  obtain ⟨w2, cur2, t2, hrun, htr, _, hnext, _, hkeep, hnew⟩ :=
    recreate_steps_spec env hf (cd_endpoints cd)
      (free_endpoints_loop [1, 2, 3, 4, 5, 6, 7] (w.emit (Event.sram_memset 8 0 (7 * 8))))
      ep0.rxbd.addr (fun ed hed => by have := hnum ed hed; omega)
  have hzero : ∀ d, w2.endpoints 0 d = w.endpoints 0 d := by
    intro d
    rw [hkeep 0 d (fun ed hed hm => by have := hnum ed hed; omega), hfe]
    simp [World.emit]
  have hmem : ∀ n, 1 ≤ n → n ≤ 7 → n ∈ [1, 2, 3, 4, 5, 6, 7] := by
    intro n h1 h7
    simp only [List.mem_cons, List.mem_singleton, List.not_mem_nil, or_false]
    omega
  refine ⟨w2, [Event.sram_memset 8 0 (7 * 8)] ++ tf ++ t2, ?_, ?_, hzero 0, hzero 1, ?_⟩
  · simp only [recreate_endpoints_for_configuration, he2, ho2,
      recreate_interfaces_loop_cd env cd hcd, hrun]
  · rw [htr, hft]
    simp [World.emit]
  · intro n d h1 h7 hd
    have hd01 : d = 0 ∨ d = 1 := by omega
    have hempty : (free_endpoints_loop [1, 2, 3, 4, 5, 6, 7]
        (w.emit (Event.sram_memset 8 0 (7 * 8)))).endpoints n d = none := by
      rw [hfe, if_pos ⟨hmem n h1 h7, hd01⟩]
    have hiff : w2.endpoints n d ≠ none →
        ∃ ed ∈ cd_endpoints cd, ed_endp ed = n ∧ ed_slot ed = d := by
      intro hne
      by_contra hno
      apply hne
      rw [hkeep n d (fun ed hed hm => hno ⟨ed, hed, hm⟩), hempty]
    refine ⟨⟨hiff, ?_⟩, ?_, ?_⟩
    · intro hex
      obtain ⟨p, _, _, _, _, _, _, hslot, _, _⟩ := hnew n d hex
      rw [hslot]
      simp
    · intro p hp
      have hex := hiff (by rw [hp]; simp)
      obtain ⟨p2, ed, a, hp2, hed, hn, hdd, hslot, hobj, hev⟩ := hnew n d hex
      have hpp : p = p2 := by
        rw [hp] at hslot
        exact Option.some.inj hslot
      subst hpp
      rw [hfn] at hp2
      exact ⟨hp2, ed, hed, a, hn, hdd, hobj, List.mem_append_right _ hev⟩
    · obtain ⟨ha, hb⟩ := hfev n (hmem n h1 h7)
      have hin : ∀ e, e ∈ tf → e ∈ [Event.sram_memset 8 0 (7 * 8)] ++ tf ++ t2 := by
        intro e h
        exact List.mem_append_left _ (List.mem_append_right _ h)
      rcases hd01 with h | h
      · subst h; exact hin _ ha
      · subst h; exact hin _ hb

theorem recreate_registry_witness :
    (create_follows_descriptor env1 ∧ configuration_wf cd_64_32 ∧
      (∀ ed ∈ cd_endpoints cd_64_32, 1 ≤ ed_endp ed ∧ ed_endp ed ≤ 7) ∧
      world_address.endpoints 0 0 = some 0 ∧
      world_address.objects 0 =
        some (env0.hal5_usb_ep_prepare_for_out (env0.hal5_usb_ep_create none 64 64)
          ep_status_stall) ∧
      (∀ i d, 1 ≤ i → world_address.endpoints i d ≠ some 0)) ∧
    ∃ w2 t, recreate_endpoints_for_configuration env1 cd_64_32 world_address = .ok w2 ∧
      w2.trace = world_address.trace ++ t ∧
      w2.endpoints 0 0 = world_address.endpoints 0 0 ∧
      w2.endpoints 0 1 = world_address.endpoints 0 1 ∧
      ∀ n d, 1 ≤ n → n ≤ 7 → d < 2 →
        (w2.endpoints n d ≠ none ↔
          ∃ ed ∈ cd_endpoints cd_64_32, ed_endp ed = n ∧ ed_slot ed = d) ∧
        (∀ p, w2.endpoints n d = some p →
          world_address.next_object ≤ p ∧
          ∃ ed ∈ cd_endpoints cd_64_32, ∃ a, ed_endp ed = n ∧ ed_slot ed = d ∧
            w2.objects p = some (env1.hal5_usb_ep_create (some ed) 0 a) ∧
            Event.ep_create (some ed) 0 a p ∈ t) ∧
        Event.ep_free (world_address.endpoints n d) ∈ t :=
  have hf : create_follows_descriptor env1 := fun _ _ _ => ⟨rfl, rfl⟩
  have hnum : ∀ ed ∈ cd_endpoints cd_64_32, 1 ≤ ed_endp ed ∧ ed_endp ed ≤ 7 := by
    decide
  ⟨⟨hf, cd_64_32_wf, hnum, rfl, rfl, world_address_no_alias⟩,
    recreate_registry env1 cd_64_32 world_address 0 _ hf cd_64_32_wf hnum rfl rfl
      world_address_no_alias⟩

/-! ## Theorems: SETUP completion and the completion indicators -/

/-- C21: `usb_device_setup_transaction_completed` stops in its assertion iff
`rx_received` is not 8, and then it has made no call and left the endpoint as
it found it; with `rx_received = 8` it sets `device_request` to the receive
data and its only call is the endpoint-0 SETUP handler, to which it hands the
endpoint with the transfer counters it found.  And
`hal5_usb_device_transaction_completed` stops in the assertion of line 490
when neither `vtrx` nor `vttx` is set; when `vtrx` is set it runs the SETUP or
OUT path whatever `vttx` is, and `hal5_usb_ep_clear_vttx` and the IN
stage-completion callbacks are not among its calls. -/
theorem setup_completion_contract (env : Env) (ep : hal5_usb_endpoint_t) :
    ((∃ e, usb_device_setup_transaction_completed env ep = .error e) ↔ ep.rx_received ≠ 8) ∧
    (ep.rx_received ≠ 8 →
      usb_device_setup_transaction_completed env ep =
        .error (Fault.assert_failed 319, ep, [])) ∧
    (ep.rx_received = 8 →
      usb_device_setup_transaction_completed env ep =
        .ok (env.hal5_usb_device_setup_transaction_completed_ep0
            { ep with device_request := some ep.rx_data },
          [Event.setup_transaction_completed_ep0])) ∧
    (({ ep with device_request := some ep.rx_data } : hal5_usb_endpoint_t).rx_received =
        ep.rx_received ∧
      ({ ep with device_request := some ep.rx_data } : hal5_usb_endpoint_t).tx_sent =
        ep.tx_sent ∧
      ({ ep with device_request := some ep.rx_data } : hal5_usb_endpoint_t).tx_sent_limit =
        ep.tx_sent_limit ∧
      ({ ep with device_request := some ep.rx_data } : hal5_usb_endpoint_t).tx_zlp_sent =
        ep.tx_zlp_sent) ∧
    (ep.chep.vtrx = false → ep.chep.vttx = false →
      hal5_usb_device_transaction_completed env ep =
        .error (Fault.assert_failed 490, ep, [])) ∧
    (ep.chep.vtrx = true →
      hal5_usb_device_transaction_completed env ep =
        (if (env.hal5_usb_ep_clear_vtrx ep).chep.setup then
          match usb_device_setup_transaction_completed env (env.hal5_usb_ep_clear_vtrx ep) with
          | .error (f, ep2, t) => .error (f, ep2, Event.ep_clear_vtrx :: t)
          | .ok (ep2, t) => .ok (ep2, Event.ep_clear_vtrx :: t)
        else
          .ok ((usb_device_out_transaction_completed env (env.hal5_usb_ep_clear_vtrx ep)).1,
            Event.ep_clear_vtrx ::
              (usb_device_out_transaction_completed env (env.hal5_usb_ep_clear_vtrx ep)).2)) ∧
      (∀ r, hal5_usb_device_transaction_completed env ep = .ok r →
        Event.ep_clear_vttx ∉ r.2 ∧ Event.in_stage_completed_ep0 ∉ r.2 ∧
        Event.in_stage_completed_ex ∉ r.2) ∧
      (∀ e, hal5_usb_device_transaction_completed env ep = .error e →
        e = (Fault.assert_failed 319, env.hal5_usb_ep_clear_vtrx ep, [Event.ep_clear_vtrx]))) := by
  refine ⟨?_, ?_, ?_, ⟨rfl, rfl, rfl, rfl⟩, ?_, ?_⟩
  · by_cases h : ep.rx_received = 8 <;> simp [usb_device_setup_transaction_completed, h]
  · intro h
    simp [usb_device_setup_transaction_completed, h]
  · intro h
    simp [usb_device_setup_transaction_completed, h]
  · intro h1 h2
    simp [hal5_usb_device_transaction_completed, h1, h2]
  · intro h1
    have heq : hal5_usb_device_transaction_completed env ep =
        (if (env.hal5_usb_ep_clear_vtrx ep).chep.setup then
          match usb_device_setup_transaction_completed env (env.hal5_usb_ep_clear_vtrx ep) with
          | .error (f, ep2, t) => .error (f, ep2, Event.ep_clear_vtrx :: t)
          | .ok (ep2, t) => .ok (ep2, Event.ep_clear_vtrx :: t)
        else
          .ok ((usb_device_out_transaction_completed env (env.hal5_usb_ep_clear_vtrx ep)).1,
            Event.ep_clear_vtrx ::
              (usb_device_out_transaction_completed env (env.hal5_usb_ep_clear_vtrx ep)).2)) := by
      simp only [hal5_usb_device_transaction_completed, h1, if_true]
    refine ⟨heq, ?_, ?_⟩
    · intro r hr
      rw [heq] at hr
      by_cases hs : (env.hal5_usb_ep_clear_vtrx ep).chep.setup = true
      · by_cases h8 : (env.hal5_usb_ep_clear_vtrx ep).rx_received = 8
        · simp [hs, usb_device_setup_transaction_completed, h8] at hr
          subst hr
          simp
        · simp [hs, usb_device_setup_transaction_completed, h8] at hr
      · simp only [hs, Bool.false_eq_true, if_false, Except.ok.injEq] at hr
        subst hr
        simp only [usb_device_out_transaction_completed, hal5_usb_device_out_stage_completed]
        split <;> [split <;> [simp; (split <;> simp)]; simp]
    · intro e he
      rw [heq] at he
      by_cases hs : (env.hal5_usb_ep_clear_vtrx ep).chep.setup = true
      · by_cases h8 : (env.hal5_usb_ep_clear_vtrx ep).rx_received = 8
        · simp [hs, usb_device_setup_transaction_completed, h8] at he
        · simp [hs, usb_device_setup_transaction_completed, h8] at he
          exact he.symm
      · simp [hs] at he

theorem setup_completion_contract_witness :
    (ep_setup.rx_received = 8 ∧ ep_both.chep.vtrx = true ∧ ep_both.chep.vttx = true) ∧
    usb_device_setup_transaction_completed env0 ep_setup =
      .ok (env0.hal5_usb_device_setup_transaction_completed_ep0
          { ep_setup with device_request := some ep_setup.rx_data },
        [Event.setup_transaction_completed_ep0]) ∧
    hal5_usb_device_transaction_completed env0 ep_both =
      .ok ({ ep_both with chep := ⟨false, true, false⟩ },
        [Event.ep_clear_vtrx, Event.out_stage_completed_ep0]) :=
  ⟨⟨rfl, rfl, rfl⟩,
    (setup_completion_contract env0 ep_setup).2.2.1 rfl,
    ((setup_completion_contract env0 ep_both).2.2.2.2.2 rfl).1⟩

/-- C24: on a chunk shorter than `mps`, `usb_device_out_transaction_completed`
does what `hal5_usb_device_out_stage_completed` does: for endpoint 0 its only
call is the endpoint-0 callback, for every other endpoint its only call is the
generic callback; and the result is the same whatever
`hal5_usb_device_ep0_get_standard_request` returns. -/
theorem out_short_chunk_callback (env : Env) (ep : hal5_usb_endpoint_t)
    (hlt : ep.rxbd.count < ep.mps) :
    usb_device_out_transaction_completed env ep = hal5_usb_device_out_stage_completed env ep ∧
    (ep.endp = 0 →
      usb_device_out_transaction_completed env ep =
        (env.hal5_usb_device_out_stage_completed_ep0 ep, [Event.out_stage_completed_ep0])) ∧
    (ep.endp ≠ 0 →
      usb_device_out_transaction_completed env ep =
        (env.hal5_usb_device_out_stage_completed_ex ep, [Event.out_stage_completed_ex])) ∧
    (∀ r : hal5_usb_standard_request_t,
      usb_device_out_transaction_completed
        { env with hal5_usb_device_ep0_get_standard_request := r } ep =
      usb_device_out_transaction_completed env ep) := by
  have hmain : ∀ e : Env, usb_device_out_transaction_completed e ep =
      hal5_usb_device_out_stage_completed e ep := by
    intro e
    by_cases h0 : ep.endp = 0
    · by_cases hr : e.hal5_usb_device_ep0_get_standard_request = standard_request_null
      · simp [usb_device_out_transaction_completed, hlt, h0, hr]
      · simp [usb_device_out_transaction_completed, hal5_usb_device_out_stage_completed,
          hlt, h0, hr]
    · simp [usb_device_out_transaction_completed, hlt, h0]
  refine ⟨hmain env, ?_, ?_, ?_⟩
  · intro h0
    rw [hmain env]
    simp [hal5_usb_device_out_stage_completed, h0]
  · intro h0
    rw [hmain env]
    simp [hal5_usb_device_out_stage_completed, h0]
  · intro r
    rw [hmain, hmain env]
    rfl

theorem out_short_chunk_callback_witness :
    ep_both.rxbd.count < ep_both.mps ∧
    usb_device_out_transaction_completed env_pending ep_both =
      (env_pending.hal5_usb_device_out_stage_completed_ep0 ep_both,
        [Event.out_stage_completed_ep0]) ∧
    usb_device_out_transaction_completed env0 ep_both =
      usb_device_out_transaction_completed env_pending ep_both :=
  ⟨by decide,
    (out_short_chunk_callback env_pending ep_both (by decide)).2.1 rfl,
    (out_short_chunk_callback env_pending ep_both (by decide)).2.2.2 standard_request_null⟩

/-! ## Theorems: the table index of the dispatcher -/

theorem idn_bit3 : ∀ y : Nat, y < 16 → (y &&& 8 = 0 ↔ y < 8) := by
  decide

/-- The endpoint number the dispatcher decodes is the status value modulo 16,
and bit 3 of the status value is bit 3 of that number. -/
theorem irq_idn_decode (istr : Nat) :
    ((istr &&& USB_ISTR_IDN_Msk) &&& 0xF) % 256 = istr % 16 ∧
    istr &&& 0x8 = (istr % 16) &&& 0x8 := by
  have h15 : istr &&& 15 = istr % 16 := Nat.and_pow_two_sub_one_eq_mod istr 4
  have hy : istr % 16 < 16 := Nat.mod_lt _ (by decide)
  have h15y : (istr % 16) &&& 15 = istr % 16 := by
    have h := Nat.and_pow_two_sub_one_eq_mod (istr % 16) 4
    have h2 : istr % 16 % 2 ^ 4 = istr % 16 := Nat.mod_eq_of_lt hy
    rw [h2] at h
    exact h
  constructor
  · show ((istr &&& 15) &&& 15) % 256 = istr % 16
    rw [h15, h15y]
    exact Nat.mod_eq_of_lt (by omega)
  · have h8 : (15 : Nat) &&& 8 = 8 := by decide
    calc istr &&& 0x8 = istr &&& (15 &&& 8) := by rw [h8]
      _ = (istr &&& 15) &&& 8 := (Nat.land_assoc _ _ _).symm
      _ = (istr % 16) &&& 0x8 := by rw [h15]

/-- C22 (counterexample): with the transaction-complete bit set, the reset bit
clear and the number 8 in the `IDN` field (status value 0x8008), the decoded
endpoint number is 8, not less than 8, and the dispatcher stops at the table
access of line 598, out of the bounds of `endpoints[8][2]`. -/
theorem irq_idn_out_of_range :
    world_irq_idn8.USB_DRD_FS.ISTR = 0x8008 ∧
    0x8008 &&& USB_ISTR_CTR ≠ 0 ∧ 0x8008 &&& USB_ISTR_RESET_Msk = 0 ∧
    ((0x8008 &&& USB_ISTR_IDN_Msk) &&& 0xF) % 256 = 8 ∧ ¬ (8 < 8) ∧
    USB_DRD_FS_IRQHandler env0 hal5_usb_device_descriptor world_irq_idn8 =
      .error (Fault.out_of_bounds, world_irq_idn8) := by
  refine ⟨rfl, by decide, by decide, by decide, by decide, rfl⟩

/-- C22 (amended): for every status value the endpoint number the dispatcher
decodes is less than 16, it is less than 8, inside the first dimension of
`endpoints[8][2]`, exactly when bit 3 of the status value is clear, and the
direction index is 0 or 1; with the transaction-complete bit set, the reset
bit clear and bit 3 clear, `USB_DRD_FS_IRQHandler` does not stop in an access
out of the bounds of the table. -/
theorem irq_idn_in_range (env : Env) (dd : hal5_usb_device_descriptor_t) (w : World) :
    ((w.USB_DRD_FS.ISTR &&& USB_ISTR_IDN_Msk) &&& 0xF) % 256 < 16 ∧
    (((w.USB_DRD_FS.ISTR &&& USB_ISTR_IDN_Msk) &&& 0xF) % 256 < 8 ↔
      w.USB_DRD_FS.ISTR &&& 0x8 = 0) ∧
    (if decide (w.USB_DRD_FS.ISTR &&& USB_ISTR_DIR_Msk ≠ 0) = true then 1 else 0) < 2 ∧
    (w.USB_DRD_FS.ISTR &&& USB_ISTR_RESET_Msk = 0 → w.USB_DRD_FS.ISTR &&& USB_ISTR_CTR ≠ 0 →
      w.USB_DRD_FS.ISTR &&& 0x8 = 0 →
      ∀ e, USB_DRD_FS_IRQHandler env dd w = .error e → e.1 ≠ Fault.out_of_bounds) := by
  obtain ⟨hidn, hbit⟩ := irq_idn_decode w.USB_DRD_FS.ISTR
  have hy : w.USB_DRD_FS.ISTR % 16 < 16 := Nat.mod_lt _ (by decide)
  have hiff : ((w.USB_DRD_FS.ISTR &&& USB_ISTR_IDN_Msk) &&& 0xF) % 256 < 8 ↔
      w.USB_DRD_FS.ISTR &&& 0x8 = 0 := by
    rw [hidn, hbit]
    exact (idn_bit3 _ hy).symm
  refine ⟨by rw [hidn]; exact hy, hiff, by split <;> decide, ?_⟩
  intro hreset hctr h3 e he
  have hlt := hiff.mpr h3
  simp only [USB_DRD_FS_IRQHandler, hreset, hctr, ne_eq, not_true_eq_false, not_false_eq_true,
    if_true, if_false, irq_ctr, hlt] at he
  split at he
  · cases he
    simp
  · split at he
    · cases he
      simp
    · split at he
      · rename_i f ep2 t hrun
        cases he
        intro hf
        simp only at hf
        subst hf
        simp only [hal5_usb_device_transaction_completed] at hrun
        split at hrun
        · split at hrun
          · split at hrun
            · rename_i hsetup
              simp only [usb_device_setup_transaction_completed] at hsetup
              split at hsetup
              · cases hsetup
                cases hrun
              · cases hsetup
            · cases hrun
          · cases hrun
        · split at hrun
          · split at hrun
            · rename_i hin
              simp only [usb_device_in_transaction_completed] at hin
              split at hin
              · rename_i f2 hact
                cases hin
                cases hrun
                simp only [usb_device_in_transaction_completed_action] at hact
                split at hact
                · cases hact
                · split at hact
                  · cases hact
                  · split at hact
                    · split at hact
                      · split at hact <;> cases hact
                      · cases hact
                    · cases hact
              · cases hin
            · cases hrun
          · cases hrun
      · cases he

theorem irq_idn_in_range_witness :
    (world_irq_ctr.USB_DRD_FS.ISTR &&& USB_ISTR_RESET_Msk = 0 ∧
      world_irq_ctr.USB_DRD_FS.ISTR &&& USB_ISTR_CTR ≠ 0 ∧
      world_irq_ctr.USB_DRD_FS.ISTR &&& 0x8 = 0) ∧
    ((world_irq_ctr.USB_DRD_FS.ISTR &&& USB_ISTR_IDN_Msk) &&& 0xF) % 256 < 8 ∧
    (∀ e, USB_DRD_FS_IRQHandler env0 hal5_usb_device_descriptor world_irq_ctr = .error e →
      e.1 ≠ Fault.out_of_bounds) :=
  ⟨⟨by decide, by decide, by decide⟩,
    (irq_idn_in_range env0 hal5_usb_device_descriptor world_irq_ctr).2.1.mpr (by decide),
    (irq_idn_in_range env0 hal5_usb_device_descriptor world_irq_ctr).2.2.2
      (by decide) (by decide) (by decide)⟩

/-! ## Theorems: the releases of bus reset -/

/-- The calls and the table of `hal5_usb_device_bus_reset`: it hands both
endpoint-0 slots to `hal5_usb_ep_free`, creates one object with
`bMaxPacketSize0` at buffer address 64, stores its pointer in both endpoint-0
slots and leaves the slots of the other endpoint numbers. -/
theorem bus_reset_calls (env : Env) (dd : hal5_usb_device_descriptor_t) (w : World) :
    (hal5_usb_device_bus_reset env dd w).trace =
      w.trace ++ [Event.ep_free (w.endpoints 0 0), Event.ep_free (w.endpoints 0 1),
        Event.ep_create none dd.bMaxPacketSize0 64 w.next_object,
        Event.ep_sync_from_reg, Event.ep_prepare_for_out ep_status_stall,
        Event.ep_sync_to_reg] ∧
    (hal5_usb_device_bus_reset env dd w).endpoints 0 0 = some w.next_object ∧
    (hal5_usb_device_bus_reset env dd w).endpoints 0 1 = some w.next_object ∧
    (hal5_usb_device_bus_reset env dd w).next_object = w.next_object + 1 ∧
    (hal5_usb_device_bus_reset env dd w).objects w.next_object =
      some (env.hal5_usb_ep_sync_to_reg (env.hal5_usb_ep_prepare_for_out
        (env.hal5_usb_ep_sync_from_reg (env.hal5_usb_ep_create none dd.bMaxPacketSize0 64))
        ep_status_stall)) ∧
    (∀ n d, 1 ≤ n →
      (hal5_usb_device_bus_reset env dd w).endpoints n d = w.endpoints n d) := by
  cases hs : w.usb_device_state <;>
    simp [hal5_usb_device_bus_reset, hs, hal5_usb_ep_free, ep_create, update_object,
      World.emit, set_endpoint] <;>
    (intro n d hn; have hn0 : ¬ n = 0 := by omega
     simp [hn0])

/-- C23 (the code at the failing input): the connected sample world has had
its first bus reset, so both endpoint-0 slots hold the pointer 0 of the object
that reset created.  The second bus reset passes that same pointer to both of
its `hal5_usb_ep_free` calls.  And so does every bus reset that follows a bus
reset: both calls get the pointer the previous reset allocated. -/
theorem bus_reset_releases_ep0_twice :
    world_c1.endpoints 0 0 = some 0 ∧ world_c1.endpoints 0 1 = some 0 ∧
    (hal5_usb_device_bus_reset env0 hal5_usb_device_descriptor world_c1).trace.drop
        world_c1.trace.length =
      [Event.ep_free (some 0), Event.ep_free (some 0), Event.ep_create none 64 64 1,
        Event.ep_sync_from_reg, Event.ep_prepare_for_out ep_status_stall,
        Event.ep_sync_to_reg] ∧
    (∀ (env : Env) (dd : hal5_usb_device_descriptor_t) (w : World),
      (hal5_usb_device_bus_reset env dd (hal5_usb_device_bus_reset env dd w)).trace =
        (hal5_usb_device_bus_reset env dd w).trace ++
          [Event.ep_free (some w.next_object), Event.ep_free (some w.next_object),
            Event.ep_create none dd.bMaxPacketSize0 64 (w.next_object + 1),
            Event.ep_sync_from_reg, Event.ep_prepare_for_out ep_status_stall,
            Event.ep_sync_to_reg]) := by
  refine ⟨rfl, rfl, by decide, ?_⟩
  intro env dd w
  obtain ⟨_, h00, h01, hnext, _, _⟩ := bus_reset_calls env dd w
  obtain ⟨htr, _⟩ := bus_reset_calls env dd (hal5_usb_device_bus_reset env dd w)
  rw [htr, h00, h01, hnext]

end Hal5Usb
